import Mathlib

/-!
Verification development for the sand-tetris simulation engine
(`src/lib/sand-tetris.ts`).

The TypeScript engine is shallowly embedded here:

* machine numbers become `Nat`/`Int` (grain tick counters are `Int`
  because the source decrements before comparing with `<= 0`);
* the dense `(SandGrain | null)[][]` grid becomes a total function
  `Nat → Nat → Option SandGrain`; out-of-range accesses in the source
  are always guarded by `isValidPosition`, which the embedding mirrors;
* the string position keys `"x,y"` of the source are a performance
  device (`positionToKey`/`keyToPosition` are mutually inverse), so
  positions are embedded directly as pairs `(x, y) : Nat × Nat`;
* `Set<string>`/`Map<number, _>` iterated in insertion order become
  `List`s kept in the same order as the source iterates them;
* the disjoint-set-union pass of `findConnectedComponents` registers a
  cell only when it unions with an occupied 8-neighbor of equal
  resolved color, and partitions the registered cells into equivalence
  classes of that relation; the embedding computes the same partition
  by a bounded breadth-first closure (`growComponent`) from seeds that
  have at least one such neighbor, scanning seeds in the same row-major
  order as the first pass of the source -- isolated occupied cells
  belong to no component in either semantics;
* `Math.random()` draws (spawn color and start column) are passed in as
  explicit parameters, constrained exactly as the source constrains the
  drawn values.
-/

namespace SandTetris

/-- Sand grain: `color` 0-6, `speed` ticks between movements, `ticks`
current counter (source decrements it and compares with `<= 0`). -/
structure SandGrain where
  color : Nat
  speed : Nat
  ticks : Int
deriving DecidableEq, Repr

/-- Connected component record, mirroring the `ConnectedComponent`
interface of the source. -/
structure ConnectedComponent where
  id : Nat
  cells : List (Nat × Nat)
  originalColor : Nat
  touchesLeftWall : Bool
  touchesRightWall : Bool
  eliminationCountdown : Int
deriving DecidableEq, Repr

/-- The grid as a total function; the source's dense array is only ever
read through bounds-checked accessors. -/
abbrev Grid := Nat → Nat → Option SandGrain

/-- Full engine state: the private fields of class `SandTetrisGrid`. -/
structure GameState where
  width : Nat
  height : Nat
  grid : Grid
  connectedComponents : List ConnectedComponent
  nextComponentId : Nat
  hasActiveEliminations : Bool
  isGameOver : Bool
  fallingPieceCells : List (Nat × Nat)
  canSpawnNewPiece : Bool

/-- ELIMINATION_TICKS of GRID_CONFIG. -/
def ELIMINATION_TICKS : Int := 20

/-- BLINK_INTERVAL of GRID_CONFIG. -/
def BLINK_INTERVAL : Int := 5

/-- WHITE_COLOR of GRID_CONFIG. -/
def WHITE_COLOR : Nat := 6

/-- BASE_GRAIN_SPEED of GRID_CONFIG. -/
def BASE_GRAIN_SPEED : Nat := 1

/-- SPAWNING_GRAIN_SPEED of GRID_CONFIG. -/
def SPAWNING_GRAIN_SPEED : Nat := 5

/-- TETROMINO_BLOCK_SIZE. -/
def TETROMINO_BLOCK_SIZE : Nat := 5

/-- SAND_COLORS. -/
def SAND_COLORS : List Nat := [1, 2, 3, 4, 5]

/-- Tetromino type names. -/
inductive TetrominoType where
  | I | O | T | L | J | S | Z
deriving DecidableEq, Repr

/-- TETROMINO_SHAPES table. -/
def TETROMINO_SHAPES : TetrominoType → List (List Nat)
  | .I => [[1, 1, 1, 1]]
  | .O => [[1, 1], [1, 1]]
  | .T => [[0, 1, 0], [1, 1, 1]]
  | .L => [[1, 0], [1, 0], [1, 1]]
  | .J => [[0, 1], [0, 1], [1, 1]]
  | .S => [[0, 1, 1], [1, 1, 0]]
  | .Z => [[1, 1, 0], [0, 1, 1]]

/-- The empty grid produced by `createEmptyGrid`. -/
def emptyGrid : Grid := fun _ _ => none

/-- Pointwise grid update (writing one array slot). -/
def setG (g : Grid) (x0 y0 : Nat) (v : Option SandGrain) : Grid :=
  fun x y => if x = x0 ∧ y = y0 then v else g x y

/-- createGrain: spawning grains get SPAWNING_GRAIN_SPEED, others
BASE_GRAIN_SPEED; ticks start at the full speed. -/
def createGrain (color : Nat) (isSpawning : Bool) : SandGrain :=
  let speed := if isSpawning then SPAWNING_GRAIN_SPEED else BASE_GRAIN_SPEED
  { color := color, speed := speed, ticks := (speed : Int) }

/-- isValidPosition of the source, over the caller-facing `Int`
coordinates. -/
def isValidPosition (w h : Nat) (x y : Int) : Prop :=
  0 ≤ x ∧ x < (w : Int) ∧ 0 ≤ y ∧ y < (h : Int)

instance (w h : Nat) (x y : Int) : Decidable (isValidPosition w h x y) := by
  unfold isValidPosition; infer_instance

/-- isValidCellValue: integers 0..6 (the `Number.isInteger` test of the
source is absorbed by the `Int` domain). -/
def isValidCellValue (v : Int) : Prop := 0 ≤ v ∧ v ≤ 6

instance (v : Int) : Decidable (isValidCellValue v) := by
  unfold isValidCellValue; infer_instance

/-- getCell: empty (0) for out-of-range coordinates, else the grain
color or 0. -/
def getCell (s : GameState) (x y : Int) : Nat :=
  if isValidPosition s.width s.height x y then
    match s.grid x.toNat y.toNat with
    | some g => g.color
    | none => 0
  else 0

/-- setCell: rejects invalid coordinates or values; value 0 clears the
slot, a nonzero value installs a fresh base-speed grain. -/
def setCell (s : GameState) (x y : Int) (value : Int) : GameState × Bool :=
  if isValidPosition s.width s.height x y ∧ isValidCellValue value then
    ({ s with
        grid := setG s.grid x.toNat y.toNat
          (if value = 0 then none else some (createGrain value.toNat false)) }, true)
  else (s, false)

/-- The constructor's state (also the state after `clear()`), for a
grid of the given dimensions. -/
def initState (w h : Nat) : GameState :=
  { width := w, height := h, grid := emptyGrid, connectedComponents := [],
    nextComponentId := 1, hasActiveEliminations := false, isGameOver := false,
    fallingPieceCells := [], canSpawnNewPiece := true }

/-- clear(): resets the grid and all dependent state. -/
def clear (s : GameState) : GameState := initState s.width s.height

/-- A state obtained by editing cells of a fresh engine: grid contents
arbitrary, all other fields as after construction. -/
def editState (w h : Nat) (g : Grid) : GameState :=
  { initState w h with grid := g }

/-- resetGameOver(). -/
def resetGameOver (s : GameState) : GameState := { s with isGameOver := false }

/-- isTimeStopped(). -/
def isTimeStopped (s : GameState) : Bool := s.hasActiveEliminations

/-- getIsGameOver(). -/
def getIsGameOver (s : GameState) : Bool := s.isGameOver

/-- Row-major scan order of the grid: y from 0 (bottom) to height-1,
x from 0 to width-1 inside each row — the iteration order of
`findConnectedComponents`, `simulatePhysics` and `countCells`. -/
def scanPos (w h : Nat) : List (Nat × Nat) :=
  (List.range h).flatMap fun y => (List.range w).map fun x => (x, y)

/-- countCells(value): number of grains of the given color. -/
def countCells (s : GameState) (value : Nat) : Nat :=
  (scanPos s.width s.height).countP fun p =>
    match s.grid p.1 p.2 with
    | some g => decide (g.color = value)
    | none => false

/-- Number of occupied cells of a state's grid. -/
def countOcc (s : GameState) : Nat :=
  (scanPos s.width s.height).countP fun p => (s.grid p.1 p.2).isSome

/-- getComponentDisplayColor: white while `floor(ticksPassed/5)` is odd,
else the original color ( `Int.fdiv` is `Math.floor` of the division,
`Int.tmod` is the JS `%` ). The identical inline formula of
`processEliminationCountdowns` reuses this definition. -/
def getComponentDisplayColor (c : ConnectedComponent) : Nat :=
  if 0 ≤ c.eliminationCountdown then
    let ticksPassed := ELIMINATION_TICKS - c.eliminationCountdown
    if (Int.fdiv ticksPassed BLINK_INTERVAL).tmod 2 = 1 then WHITE_COLOR
    else c.originalColor
  else c.originalColor

/-- Write a display color into every member cell that is in range and
occupied (color field only, speed and ticks untouched). -/
def writeColor (w h : Nat) (cells : List (Nat × Nat)) (color : Nat) (g : Grid) : Grid :=
  cells.foldl (fun g p =>
    if p.1 < w ∧ p.2 < h then
      match g p.1 p.2 with
      | some gr => setG g p.1 p.2 (some { gr with color := color })
      | none => g
    else g) g

/-- Clear every member cell that is in range. -/
def clearCells (w h : Nat) (cells : List (Nat × Nat)) (g : Grid) : Grid :=
  cells.foldl (fun g p =>
    if p.1 < w ∧ p.2 < h then setG g p.1 p.2 none else g) g

/-- Accumulator of the `processEliminationCountdowns` loop. -/
structure ElimAcc where
  grid : Grid
  comps : List ConnectedComponent
  eliminated : Bool
  blinking : Bool

/-- One component of the `processEliminationCountdowns` loop: skip idle
components; otherwise write the blink color, decrement, and clear the
cells when the countdown passes below 0 (such components are dropped
from the list, mirroring the post-loop deletion). -/
def elimStep (w h : Nat) (acc : ElimAcc) (c : ConnectedComponent) : ElimAcc :=
  if c.eliminationCountdown < 0 then { acc with comps := acc.comps ++ [c] }
  else
    let displayColor := getComponentDisplayColor c
    let g1 := writeColor w h c.cells displayColor acc.grid
    let cd := c.eliminationCountdown - 1
    if cd < 0 then
      { grid := clearCells w h c.cells g1, comps := acc.comps,
        eliminated := true, blinking := true }
    else
      { grid := g1, comps := acc.comps ++ [{ c with eliminationCountdown := cd }],
        eliminated := acc.eliminated, blinking := true }

/-- processEliminationCountdowns: returns the updated state plus the
`(eliminated, blinking)` pair; `hasActiveEliminations` is set to
`blinking`. -/
def processEliminationCountdowns (s : GameState) : GameState × Bool × Bool :=
  let r := s.connectedComponents.foldl (elimStep s.width s.height)
    { grid := s.grid, comps := [], eliminated := false, blinking := false }
  ({ s with
      grid := r.grid, connectedComponents := r.comps,
      hasActiveEliminations := r.blinking }, r.eliminated, r.blinking)

/-- getOriginalColor: a tracked cell keeps its component's stored
original color; a fresh white cell defensively resolves to 1. -/
def getOriginalColor (comps : List ConnectedComponent) (p : Nat × Nat)
    (currentValue : Nat) : Nat :=
  if currentValue = 0 then 0
  else
    match comps.find? (fun c => c.cells.any fun q => decide (q = p)) with
    | some c => c.originalColor
    | none => if currentValue = WHITE_COLOR then 1 else currentValue

/-- Resolved color of an occupied cell (0 when the cell is empty). -/
def resolveColor (g : Grid) (comps : List ConnectedComponent) (p : Nat × Nat) : Nat :=
  match g p.1 p.2 with
  | some gr => getOriginalColor comps p gr.color
  | none => 0

/-- DIRECTIONS: 4 orthogonal then 4 diagonal neighbor offsets. -/
def DIRECTIONS : List (Int × Int) :=
  [(-1, 0), (1, 0), (0, -1), (0, 1), (-1, -1), (1, -1), (-1, 1), (1, 1)]

/-- In-range neighbor of a position under an offset. -/
def nbrPos (w h : Nat) (p : Nat × Nat) (d : Int × Int) : Option (Nat × Nat) :=
  let nx : Int := (p.1 : Int) + d.1
  let ny : Int := (p.2 : Int) + d.2
  if 0 ≤ nx ∧ nx < (w : Int) ∧ 0 ≤ ny ∧ ny < (h : Int) then
    some (nx.toNat, ny.toNat)
  else none

/-- In-range 8-neighbors that are occupied and share the resolved
color: the cells the DSU pass unions with `p`. -/
def sameColorNeighbors (g : Grid) (comps : List ConnectedComponent)
    (w h : Nat) (p : Nat × Nat) : List (Nat × Nat) :=
  (DIRECTIONS.filterMap (nbrPos w h p)).filter fun q =>
    (g q.1 q.2).isSome && decide (resolveColor g comps q = resolveColor g comps p)

/-- Bounded closure of the union relation starting from a frontier:
computes the DSU equivalence class of the seed. The fuel is the cell
count of the grid, which bounds the closure depth. -/
def growComponent (g : Grid) (comps : List ConnectedComponent) (w h : Nat) :
    Nat → List (Nat × Nat) → List (Nat × Nat) → List (Nat × Nat)
  | 0, _, acc => acc
  | fuel + 1, frontier, acc =>
    let newly := frontier.foldl (fun nl p =>
      nl ++ (sameColorNeighbors g comps w h p).filter fun q =>
        !(acc.any fun r => decide (r = q)) && !(nl.any fun r => decide (r = q))) []
    if newly.isEmpty then acc
    else growComponent g comps w h fuel newly (acc ++ newly)

/-- One seed position of the component-rebuild scan: an occupied,
not-yet-visited cell that unions with at least one same-resolved-color
occupied 8-neighbor starts a new component holding its closure. A cell
with no such neighbor never enters the DSU parent map of the source, so
it starts no component and consumes no id. -/
def findCCStep (g : Grid) (comps0 : List ConnectedComponent) (w h : Nat)
    (st : List (Nat × Nat) × List ConnectedComponent × Nat) (p : Nat × Nat) :
    List (Nat × Nat) × List ConnectedComponent × Nat :=
  if (g p.1 p.2).isSome && !(st.1.any fun r => decide (r = p)) then
    if (sameColorNeighbors g comps0 w h p).isEmpty then st
    else
      let cells := growComponent g comps0 w h (w * h) [p] [p]
      let v := resolveColor g comps0 p
      let comp : ConnectedComponent :=
        { id := st.2.2, cells := cells,
          originalColor := if v = 0 then 1 else v,
          touchesLeftWall := cells.any fun q => decide (q.1 = 0),
          touchesRightWall := cells.any fun q => decide (q.1 = w - 1),
          eliminationCountdown := -1 }
      (st.1 ++ cells, st.2.1 ++ [comp], st.2.2 + 1)
  else st

/-- findConnectedComponents: partition of the occupied cells that have
at least one occupied 8-neighbor of equal resolved color into classes
of that relation (isolated occupied cells join no component, mirroring
the DSU parent map populated only by `union`), with ids assigned in
row-major discovery order, wall flags from the member cells, the
class's resolved color (0 defensively replaced by 1), and countdown
-1. -/
def findConnectedComponents (g : Grid) (comps0 : List ConnectedComponent)
    (w h : Nat) : List ConnectedComponent :=
  ((scanPos w h).foldl (findCCStep g comps0 w h) ([], [], 1)).2.1

/-- updateConnectedComponents: process countdowns; if blinking
continues with no elimination, stop; otherwise rebuild the components
and schedule every new wall-to-wall component with countdown
`ELIMINATION_TICKS - 1`, raising `hasActiveEliminations`. -/
def updateConnectedComponents (s : GameState) : GameState × Bool × Bool :=
  let r := processEliminationCountdowns s
  let s1 := r.1
  let eliminated := r.2.1
  let blinking := r.2.2
  if blinking && !eliminated then (s1, eliminated, blinking)
  else
    let newComps := findConnectedComponents s1.grid s1.connectedComponents
      s1.width s1.height
    let scheduled := newComps.map fun c =>
      if c.touchesLeftWall && c.touchesRightWall then
        { c with eliminationCountdown := ELIMINATION_TICKS - 1 }
      else c
    let hae := s1.hasActiveEliminations ||
      newComps.any fun c => c.touchesLeftWall && c.touchesRightWall
    ({ s1 with connectedComponents := scheduled, hasActiveEliminations := hae },
     eliminated, hae)

/-- Neighbor offsets probed by the speed-transition check of
`simulatePhysics` (orthogonal then diagonal, in source order). -/
def TRANSITION_NEIGHBORS : List (Int × Int) :=
  [(0, -1), (-1, 0), (1, 0), (0, 1), (-1, -1), (1, -1), (-1, 1), (1, 1)]

/-- A spawning-speed falling grain transitions to base speed when it
touches a settled base-speed grain that is not part of the piece. -/
def shouldTransitionSpeed (s : GameState) (p : Nat × Nat) (g : SandGrain)
    (isFalling : Bool) : Bool :=
  (g.speed = SPAWNING_GRAIN_SPEED : Bool) && isFalling &&
    TRANSITION_NEIGHBORS.any fun d =>
      match nbrPos s.width s.height p d with
      | some q =>
        match s.grid q.1 q.2 with
        | some ng => (ng.speed = BASE_GRAIN_SPEED : Bool) &&
            !(s.fallingPieceCells.any fun r => decide (r = q))
        | none => false
      | none => false

/-- Accumulator of the physics pass. -/
structure PhysAcc where
  next : Grid
  falling : List (Nat × Nat)
  stuck : List (Nat × Nat)
  moved : Bool

/-- One source cell of `simulatePhysics`: decrement the tick counter;
when it reaches 0, reset it and try straight down, down-left,
down-right against the next grid; otherwise (or on failure) the grain
stays, and a failed top-row grain is recorded as stuck. -/
def physCell (s : GameState) (acc : PhysAcc) (p : Nat × Nat) : PhysAcc :=
  match s.grid p.1 p.2 with
  | none => acc
  | some g =>
    let x := p.1
    let y := p.2
    let isFalling := s.fallingPieceCells.any fun r => decide (r = p)
    let trans := shouldTransitionSpeed s p g isFalling
    let t' : Int := g.ticks - 1
    let g0 : SandGrain :=
      if trans then { g with speed := BASE_GRAIN_SPEED, ticks := (BASE_GRAIN_SPEED : Int) }
      else { g with ticks := t' }
    if t' ≤ 0 then
      let g1 : SandGrain := { g0 with ticks := (g0.speed : Int) }
      let cand : List (Int × Int) :=
        [((x : Int), (y : Int) - 1), ((x : Int) - 1, (y : Int) - 1),
         ((x : Int) + 1, (y : Int) - 1)]
      match cand.find? (fun q =>
          decide (0 ≤ q.2) && decide (0 ≤ q.1) && decide (q.1 < (s.width : Int)) &&
          (acc.next q.1.toNat q.2.toNat).isNone) with
      | some q =>
        let nq := (q.1.toNat, q.2.toNat)
        { next := setG acc.next nq.1 nq.2 (some g1),
          falling := if isFalling then acc.falling ++ [nq] else acc.falling,
          stuck := acc.stuck, moved := true }
      | none =>
        { next := setG acc.next x y (some g1),
          falling := if isFalling then acc.falling ++ [p] else acc.falling,
          stuck := if y = s.height - 1 then acc.stuck ++ [p] else acc.stuck,
          moved := acc.moved }
    else
      { next := setG acc.next x y (some g0),
        falling := if isFalling then acc.falling ++ [p] else acc.falling,
        stuck := acc.stuck, moved := acc.moved }

/-- simulatePhysics: double-buffered bottom-up pass over the grid. -/
def simulatePhysics (s : GameState) : PhysAcc :=
  (scanPos s.width s.height).foldl (physCell s)
    { next := emptyGrid, falling := [], stuck := [], moved := false }

/-- checkCollisionWithPlacedPieces for one direction offset;
`isBottom` enables the floor check. -/
def collidesDir (s : GameState) (p : Nat × Nat) (d : Int × Int)
    (isBottom : Bool) : Bool :=
  let cx : Int := (p.1 : Int) + d.1
  let cy : Int := (p.2 : Int) + d.2
  if isBottom && decide (cy < 0) then true
  else if 0 ≤ cx ∧ cx < (s.width : Int) ∧ 0 ≤ cy ∧ cy < (s.height : Int) then
    match s.grid cx.toNat cy.toNat with
    | some g =>
      if 1 ≤ g.color ∧ g.color ≤ 6 then
        !(s.fallingPieceCells.any fun r => decide (r = (cx.toNat, cy.toNat)))
      else false
    | none => false
  else false

/-- checkFallingPieceCollisions: any falling cell touching placed
terrain on its left, right or bottom. -/
def checkFallingPieceCollisions (s : GameState) : Bool :=
  s.fallingPieceCells.any fun p =>
    collidesDir s p (-1, 0) false || collidesDir s p (1, 0) false ||
    collidesDir s p (0, -1) true

/-- transitionSpawningGrainsToBaseSpeed: every in-range spawning-speed
grain drops to base speed, clamping a waiting tick counter. -/
def transitionSpawningGrainsToBaseSpeed (s : GameState) : GameState :=
  { s with
      grid := fun x y =>
        if x < s.width ∧ y < s.height then
          match s.grid x y with
          | some g =>
            if g.speed = SPAWNING_GRAIN_SPEED then
              some { g with
                      speed := BASE_GRAIN_SPEED,
                      ticks := if (BASE_GRAIN_SPEED : Int) < g.ticks
                        then (BASE_GRAIN_SPEED : Int) else g.ticks }
            else some g
          | none => none
        else s.grid x y }

/-- The tail of step() once the blinking short-circuit has not fired:
physics, falling-piece settle check, game-over check. -/
def stepPhysicsPhase (s1 : GameState) (eliminated : Bool) : GameState × Bool :=
  let r := simulatePhysics s1
  let s2 := { s1 with grid := r.next, fallingPieceCells := r.falling }
  let anyChange := eliminated || r.moved
  let s3 :=
    if !s2.canSpawnNewPiece && !s2.fallingPieceCells.isEmpty then
      if checkFallingPieceCollisions s2 then
        { transitionSpawningGrainsToBaseSpeed s2 with
          canSpawnNewPiece := true, fallingPieceCells := [] }
      else s2
    else s2
  if !r.stuck.isEmpty then ({ s3 with isGameOver := true }, true)
  else (s3, anyChange)

/-- step(): game-over gate, elimination processing (short-circuiting
while blinking), then the physics phase. -/
def step (s : GameState) : GameState × Bool :=
  if s.isGameOver then (s, false)
  else
    let u := updateConnectedComponents s
    if u.2.2 then (u.1, true)
    else stepPhysicsPhase u.1 u.2.1

/-- The state component of `step`. -/
def stepState (s : GameState) : GameState := (step s).1

/-- Iterated stepping. -/
def stepN (n : Nat) (s : GameState) : GameState := stepState^[n] s

/-- fillRect: clips silently to the grid bounds; invalid values are
rejected with no change. -/
def fillRect (s : GameState) (startX startY rw rh : Int) (value : Int) : GameState :=
  if ¬ isValidCellValue value then s
  else
    let endX : Int := min (startX + rw) (s.width : Int)
    let endY : Int := min (startY + rh) (s.height : Int)
    let sx : Int := max 0 startX
    let sy : Int := max 0 startY
    let cells : List (Nat × Nat) :=
      (List.range (endY - sy).toNat).flatMap fun iy =>
        (List.range (endX - sx).toNat).map fun ix =>
          ((sx + ix).toNat, (sy + iy).toNat)
    { s with
        grid := cells.foldl (fun g p =>
          setG g p.1 p.2
            (if value = 0 then none else some (createGrain value.toNat false)))
          s.grid }

/-- The grid positions written by `startTetrominoSpawn`, in source loop
order (shape row, shape column, block row, block column), already
filtered by the `isValidPosition` guard of the source. -/
def spawnCells (ty : TetrominoType) (startX w h : Nat) : List (Nat × Nat) :=
  let shape := TETROMINO_SHAPES ty
  let tetrominoHeight := shape.length * TETROMINO_BLOCK_SIZE
  ((shape.enum).flatMap fun sr =>
    (sr.2.enum).flatMap fun sc =>
      if sc.2 = 1 then
        (List.range TETROMINO_BLOCK_SIZE).flatMap fun blockY =>
          (List.range TETROMINO_BLOCK_SIZE).map fun blockX =>
            ((startX + sc.1 * TETROMINO_BLOCK_SIZE + blockX : Int),
             ((h : Int) - tetrominoHeight + sr.1 * TETROMINO_BLOCK_SIZE + blockY : Int))
      else []).filterMap fun q =>
    if 0 ≤ q.1 ∧ q.1 < (w : Int) ∧ 0 ≤ q.2 ∧ q.2 < (h : Int) then
      some (q.1.toNat, q.2.toNat)
    else none

/-- startTetrominoSpawn: rejected (no state change) when a piece may
not be introduced or the shape is too wide; otherwise the whole shape
is written at once, as spawning grains, above-aligned to the top of the
grid, and every written cell is tagged as a falling-piece cell. The
random draws of the source are the `color` and `startX` parameters;
the source constrains `startX ≤ width - shapeWidth`. -/
def startTetrominoSpawn (s : GameState) (ty : TetrominoType) (color : Nat)
    (startX : Nat) : GameState × Bool :=
  if !s.canSpawnNewPiece then (s, false)
  else
    let shape := TETROMINO_SHAPES ty
    let tetrominoWidth := (shape.headD []).length * TETROMINO_BLOCK_SIZE
    if (s.width : Int) - (tetrominoWidth : Int) < 0 then (s, false)
    else
      let writes := spawnCells ty startX s.width s.height
      ({ s with
         grid := writes.foldl (fun g p => setG g p.1 p.2 (some (createGrain color true))) s.grid,
         fallingPieceCells := writes,
         canSpawnNewPiece := false }, true)

/-- getTetrominoSpawnProgress: spawning is instant, always 1. -/
def getTetrominoSpawnProgress (_ : GameState) : Nat := 1

/-- The falling cells that still hold a grain, with their colors — the
`piecesToMove` collection of `softDrop`. -/
def piecesToMove (t : GameState) : List (Nat × Nat × Nat) :=
  t.fallingPieceCells.foldl (fun l p =>
    match t.grid p.1 p.2 with
    | some g => l ++ [(p.1, p.2, g.color)]
    | none => l) []

/-- The `canMoveDown` check of `softDrop`: every collected cell can go
one row down (not on the floor, and the target is empty or the piece's
own body). -/
def canMoveDownB (t : GameState) : Bool :=
  (piecesToMove t).all fun q =>
    !(decide (q.2.1 = 0)) &&
      ((t.grid q.1 (q.2.1 - 1)).isNone ||
        t.fallingPieceCells.any fun r => decide (r = (q.1, q.2.1 - 1)))

/-- softDrop: run one full step; then move every falling cell down one
row as an atomic operation, or settle the piece when blocked. -/
def softDrop (s : GameState) : GameState × Bool :=
  let t := stepState s
  if t.fallingPieceCells.isEmpty then (t, false)
  else
    if canMoveDownB t then
      let cleared := t.fallingPieceCells.foldl (fun g p => setG g p.1 p.2 none) t.grid
      let moved := (piecesToMove t).foldl (fun g q =>
        setG g q.1 (q.2.1 - 1) (some (createGrain q.2.2 false))) cleared
      ({ t with
          grid := moved,
          fallingPieceCells := (piecesToMove t).map fun q => (q.1, q.2.1 - 1) }, true)
    else
      ({ t with canSpawnNewPiece := true, fallingPieceCells := [] }, false)

/-! ## Generic fold and list infrastructure -/

/-- Invariant propagation through `List.foldl`, carrying the remaining
suffix of the iteration. -/
theorem foldl_inv {α ι : Type} (f : α → ι → α) (Inv : α → List ι → Prop)
    (l : List ι)
    (hstep : ∀ acc p rest, (p :: rest) <:+ l → Inv acc (p :: rest) →
      Inv (f acc p) rest) :
    ∀ rem a, rem <:+ l → Inv a rem → Inv (rem.foldl f a) [] := by
  intro rem
  induction rem with
  | nil => intro a _ h; simpa using h
  | cons p rest ih =>
    intro a hsuf hinv
    have h1 : Inv (f a p) rest := hstep a p rest hsuf hinv
    have h2 : rest <:+ l := (List.suffix_cons p rest).trans hsuf
    simpa using ih (f a p) h2 h1

/-- Scan index of a position: the row-major order key. -/
def scanIdx (w : Nat) (p : Nat × Nat) : Nat := p.2 * w + p.1

theorem scanPos_succ (w h : Nat) :
    scanPos w (h + 1) = scanPos w h ++ (List.range w).map (fun x => (x, h)) := by
  unfold scanPos
  rw [List.range_succ, List.flatMap_append]
  simp

theorem mem_scanPos {w h : Nat} {p : Nat × Nat} :
    p ∈ scanPos w h ↔ p.1 < w ∧ p.2 < h := by
  unfold scanPos
  simp only [List.mem_flatMap, List.mem_map, List.mem_range]
  constructor
  · rintro ⟨y, hy, x, hx, rfl⟩; exact ⟨hx, hy⟩
  · rintro ⟨h1, h2⟩; exact ⟨p.2, h2, p.1, h1, rfl⟩

theorem scanPos_pairwise (w h : Nat) :
    (scanPos w h).Pairwise (fun p q => scanIdx w p < scanIdx w q) := by
  induction h with
  | zero => simp [scanPos]
  | succ n ih =>
    rw [scanPos_succ]
    rw [List.pairwise_append]
    refine ⟨ih, ?_, ?_⟩
    · rw [List.pairwise_map]
      have : (List.range w).Pairwise (· < ·) := List.pairwise_lt_range w
      exact this.imp (by intro a b hab; simpa [scanIdx] using hab)
    · intro p hp q hq
      rcases mem_scanPos.mp hp with ⟨h1, h2⟩
      simp only [List.mem_map, List.mem_range] at hq
      rcases hq with ⟨x, hx, rfl⟩
      show p.2 * w + p.1 < n * w + x
      have hle : p.2 + 1 ≤ n := h2
      have := Nat.mul_le_mul_right w hle
      rw [Nat.succ_mul] at this
      omega

theorem scanPos_nodup (w h : Nat) : (scanPos w h).Nodup := by
  have := scanPos_pairwise w h
  exact this.imp (by intro a b hab; intro h; subst h; omega)

theorem setG_at (g : Grid) (x y : Nat) (v : Option SandGrain) :
    setG g x y v x y = v := by simp [setG]

theorem setG_ne (g : Grid) (x y a b : Nat) (v : Option SandGrain)
    (h : ¬(a = x ∧ b = y)) : setG g x y v a b = g a b := by
  simp only [setG, if_neg h]

/-- Writing a fresh grain into a free in-range slot raises the occupied
count by one; this is the key step of mass conservation. -/
theorem countP_flip {ι : Type} [DecidableEq ι] (l : List ι) (hnd : l.Nodup)
    (p0 : ι) (h0 : p0 ∈ l) (f f' : ι → Bool)
    (hsame : ∀ q ∈ l, q ≠ p0 → f' q = f q)
    (hold : f p0 = false) (hnew : f' p0 = true) :
    l.countP f' = l.countP f + 1 := by
  induction l with
  | nil => cases h0
  | cons a rest ih =>
    rcases List.nodup_cons.mp hnd with ⟨hna, hndr⟩
    rcases List.mem_cons.mp h0 with rfl | hmem
    · have hrest : ∀ q ∈ rest, f' q = f q := by
        intro q hq
        exact hsame q (List.mem_cons_of_mem _ hq) (fun h => hna (h ▸ hq))
      rw [List.countP_cons, List.countP_cons, hold, hnew]
      have : rest.countP f' = rest.countP f :=
        List.countP_congr (by intro q hq; rw [hrest q hq])
      simp [this]
    · have hne : a ≠ p0 := fun h => hna (h ▸ hmem)
      have ha : f' a = f a := hsame a (List.mem_cons_self a rest) hne
      rw [List.countP_cons, List.countP_cons, ha]
      have := ih hndr hmem (fun q hq hqp => hsame q (List.mem_cons_of_mem _ hq) hqp)
      omega

/-- One iteration of the blink-color write loop. -/
def writeColorStep (w h : Nat) (col : Nat) (g : Grid) (q : Nat × Nat) : Grid :=
  if q.1 < w ∧ q.2 < h then
    match g q.1 q.2 with
    | some gr => setG g q.1 q.2 (some { gr with color := col })
    | none => g
  else g

theorem writeColor_eq_foldl (w h col : Nat) (cells : List (Nat × Nat)) (g : Grid) :
    writeColor w h cells col g = cells.foldl (writeColorStep w h col) g := rfl

theorem writeColorStep_apply (w h col : Nat) (g : Grid) (q : Nat × Nat) (a b : Nat) :
    writeColorStep w h col g q a b =
      if q = (a, b) ∧ a < w ∧ b < h ∧ (g a b).isSome
      then (g a b).map (fun gr => { gr with color := col })
      else g a b := by
  obtain ⟨qa, qb⟩ := q
  unfold writeColorStep
  by_cases hq : qa = a ∧ qb = b
  · obtain ⟨rfl, rfl⟩ := hq
    by_cases hr : qa < w ∧ qb < h
    · cases hg : g qa qb with
      | none => simp [hr, hg]
      | some gr => simp [hr, hg, setG_at]
    · rw [if_neg hr, if_neg (by rintro ⟨-, h1, h2, -⟩; exact hr ⟨h1, h2⟩)]
  · have hsg : ∀ v, setG g qa qb v a b = g a b := fun v =>
      setG_ne _ _ _ _ _ _ (by rintro ⟨rfl, rfl⟩; exact hq ⟨rfl, rfl⟩)
    have hcond : ¬((qa, qb) = (a, b) ∧ a < w ∧ b < h ∧ (g a b).isSome) := by
      intro hcon
      exact hq (by simpa using hcon.1)
    rw [if_neg hcond]
    by_cases hr : qa < w ∧ qb < h
    · rw [if_pos hr]
      cases hg : g qa qb with
      | none => simp [hg]
      | some gr =>
        simp only [hg]
        exact hsg _
    · rw [if_neg hr]

/-- Slots not in the member list are untouched by the blink write. -/
theorem writeColor_not_mem (w h col : Nat) :
    ∀ (cells : List (Nat × Nat)) (g : Grid) (a b : Nat),
      (a, b) ∉ cells → writeColor w h cells col g a b = g a b := by
  intro cells
  induction cells with
  | nil => intro g a b _; rfl
  | cons q rest ih =>
    intro g a b hnm
    rw [writeColor_eq_foldl, List.foldl_cons, ← writeColor_eq_foldl]
    have hq : q ≠ (a, b) := fun hc => hnm (hc ▸ List.mem_cons_self _ _)
    have hrest : (a, b) ∉ rest := fun hc => hnm (List.mem_cons_of_mem _ hc)
    rw [ih _ _ _ hrest, writeColorStep_apply, if_neg (by rintro ⟨hc, -⟩; exact hq hc)]

/-- A slot after the blink write: unchanged or recolored in place. -/
theorem writeColor_cases (w h col : Nat) :
    ∀ (cells : List (Nat × Nat)) (g : Grid) (a b : Nat),
      writeColor w h cells col g a b = g a b ∨
      ∃ gr, g a b = some gr ∧
        writeColor w h cells col g a b = some { gr with color := col } := by
  intro cells
  induction cells with
  | nil => intro g a b; exact Or.inl rfl
  | cons q rest ih =>
    intro g a b
    rw [writeColor_eq_foldl, List.foldl_cons, ← writeColor_eq_foldl]
    have hstep : writeColorStep w h col g q a b = g a b ∨
        ∃ gr, g a b = some gr ∧
          writeColorStep w h col g q a b = some { gr with color := col } := by
      rw [writeColorStep_apply]
      by_cases hc : q = (a, b) ∧ a < w ∧ b < h ∧ (g a b).isSome
      · rw [if_pos hc]
        cases hg : g a b with
        | none => rw [hg] at hc; rcases hc with ⟨-, -, -, hc⟩; cases hc
        | some gr => exact Or.inr ⟨gr, rfl, by simp⟩
      · rw [if_neg hc]; exact Or.inl rfl
    rcases ih (writeColorStep w h col g q) a b with h1 | ⟨gr, hgr, h1⟩
    · rcases hstep with h2 | ⟨gr, hgr, h2⟩
      · exact Or.inl (h1.trans h2)
      · exact Or.inr ⟨gr, hgr, h1.trans h2⟩
    · rcases hstep with h2 | ⟨gr2, hgr2, h2⟩
      · rw [h2] at hgr
        exact Or.inr ⟨gr, hgr, h1⟩
      · rw [h2] at hgr
        rcases Option.some.inj hgr with rfl
        exact Or.inr ⟨gr2, hgr2, by simpa using h1⟩

/-- The blink write never changes which slots are occupied. -/
theorem writeColor_isSome (w h col : Nat) (cells : List (Nat × Nat)) (g : Grid)
    (a b : Nat) :
    (writeColor w h cells col g a b).isSome = (g a b).isSome := by
  rcases writeColor_cases w h col cells g a b with h1 | ⟨gr, hgr, h1⟩
  · rw [h1]
  · rw [h1, hgr]; rfl

/-- An in-range occupied member slot is recolored by the blink write. -/
theorem writeColor_mem_occ (w h col : Nat) :
    ∀ (cells : List (Nat × Nat)) (g : Grid) (a b : Nat) (gr : SandGrain),
      (a, b) ∈ cells → a < w → b < h → g a b = some gr →
      writeColor w h cells col g a b = some { gr with color := col } := by
  intro cells
  induction cells with
  | nil => intro g a b gr hm; cases hm
  | cons q rest ih =>
    intro g a b gr hm ha hb hg
    rw [writeColor_eq_foldl, List.foldl_cons, ← writeColor_eq_foldl]
    by_cases hrest : (a, b) ∈ rest
    · have hstep : ∃ gr2, writeColorStep w h col g q a b = some gr2 ∧
          ({ gr2 with color := col } : SandGrain) = { gr with color := col } := by
        rw [writeColorStep_apply]
        by_cases hc : q = (a, b) ∧ a < w ∧ b < h ∧ (g a b).isSome
        · rw [if_pos hc, hg]
          exact ⟨{ gr with color := col }, rfl, rfl⟩
        · rw [if_neg hc, hg]
          exact ⟨gr, rfl, rfl⟩
      rcases hstep with ⟨gr2, hgr2, hcol⟩
      rw [ih _ a b gr2 hrest ha hb hgr2, hcol]
    · have hq : q = (a, b) := by
        rcases List.mem_cons.mp hm with hc | hc
        · exact hc.symm
        · exact absurd hc hrest
      have hstep : writeColorStep w h col g q a b = some { gr with color := col } := by
        rw [writeColorStep_apply, if_pos ⟨hq, ha, hb, by rw [hg]; rfl⟩, hg]
        rfl
      rw [writeColor_not_mem _ _ _ _ _ _ _ hrest, hstep]

/-- One iteration of the elimination clear loop. -/
def clearCellsStep (w h : Nat) (g : Grid) (q : Nat × Nat) : Grid :=
  if q.1 < w ∧ q.2 < h then setG g q.1 q.2 none else g

theorem clearCells_eq_foldl (w h : Nat) (cells : List (Nat × Nat)) (g : Grid) :
    clearCells w h cells g = cells.foldl (clearCellsStep w h) g := rfl

theorem clearCellsStep_apply (w h : Nat) (g : Grid) (q : Nat × Nat) (a b : Nat) :
    clearCellsStep w h g q a b =
      if q = (a, b) ∧ a < w ∧ b < h then none else g a b := by
  obtain ⟨qa, qb⟩ := q
  unfold clearCellsStep
  by_cases hq : qa = a ∧ qb = b
  · obtain ⟨rfl, rfl⟩ := hq
    by_cases hr : qa < w ∧ qb < h
    · rw [if_pos hr, if_pos ⟨rfl, hr⟩, setG_at]
    · rw [if_neg hr, if_neg (by rintro ⟨-, hc⟩; exact hr hc)]
  · have hcond : ¬((qa, qb) = (a, b) ∧ a < w ∧ b < h) := by
      intro hcon
      exact hq (by simpa using hcon.1)
    rw [if_neg hcond]
    by_cases hr : qa < w ∧ qb < h
    · rw [if_pos hr]
      exact setG_ne _ _ _ _ _ _ (by rintro ⟨rfl, rfl⟩; exact hq ⟨rfl, rfl⟩)
    · rw [if_neg hr]

/-- Slots not in the member list are untouched by the clear loop. -/
theorem clearCells_not_mem (w h : Nat) :
    ∀ (cells : List (Nat × Nat)) (g : Grid) (a b : Nat),
      (a, b) ∉ cells → clearCells w h cells g a b = g a b := by
  intro cells
  induction cells with
  | nil => intro g a b _; rfl
  | cons q rest ih =>
    intro g a b hnm
    rw [clearCells_eq_foldl, List.foldl_cons, ← clearCells_eq_foldl]
    have hq : q ≠ (a, b) := fun hc => hnm (hc ▸ List.mem_cons_self _ _)
    have hrest : (a, b) ∉ rest := fun hc => hnm (List.mem_cons_of_mem _ hc)
    rw [ih _ _ _ hrest, clearCellsStep_apply, if_neg (by rintro ⟨hc, -⟩; exact hq hc)]

/-- A slot after the clear loop: unchanged or emptied. -/
theorem clearCells_cases (w h : Nat) :
    ∀ (cells : List (Nat × Nat)) (g : Grid) (a b : Nat),
      clearCells w h cells g a b = g a b ∨ clearCells w h cells g a b = none := by
  intro cells
  induction cells with
  | nil => intro g a b; exact Or.inl rfl
  | cons q rest ih =>
    intro g a b
    rw [clearCells_eq_foldl, List.foldl_cons, ← clearCells_eq_foldl]
    have hstep : clearCellsStep w h g q a b = g a b ∨
        clearCellsStep w h g q a b = none := by
      rw [clearCellsStep_apply]
      by_cases hc : q = (a, b) ∧ a < w ∧ b < h
      · rw [if_pos hc]; exact Or.inr rfl
      · rw [if_neg hc]; exact Or.inl rfl
    rcases ih (clearCellsStep w h g q) a b with h1 | h1
    · rcases hstep with h2 | h2
      · exact Or.inl (h1.trans h2)
      · exact Or.inr (h1.trans h2)
    · exact Or.inr h1

/-- In-range member slots are emptied by the clear loop. -/
theorem clearCells_mem (w h : Nat) :
    ∀ (cells : List (Nat × Nat)) (g : Grid) (a b : Nat),
      (a, b) ∈ cells → a < w → b < h → clearCells w h cells g a b = none := by
  intro cells
  induction cells with
  | nil => intro g a b hm; cases hm
  | cons q rest ih =>
    intro g a b hm ha hb
    rw [clearCells_eq_foldl, List.foldl_cons, ← clearCells_eq_foldl]
    by_cases hrest : (a, b) ∈ rest
    · exact ih _ a b hrest ha hb
    · have hq : q = (a, b) := by
        rcases List.mem_cons.mp hm with hc | hc
        · exact hc.symm
        · exact absurd hc hrest
      have hstep : clearCellsStep w h g q a b = none := by
        rw [clearCellsStep_apply, if_pos ⟨hq, ha, hb⟩]
      rw [clearCells_not_mem _ _ _ _ _ _ hrest, hstep]

/-- An empty slot stays empty through the clear loop. -/
theorem clearCells_none (w h : Nat) (cells : List (Nat × Nat)) (g : Grid)
    (a b : Nat) (hg : g a b = none) : clearCells w h cells g a b = none := by
  rcases clearCells_cases w h cells g a b with h1 | h1
  · rw [h1, hg]
  · exact h1

/-- An empty slot stays empty through the blink write. -/
theorem writeColor_none (w h col : Nat) (cells : List (Nat × Nat)) (g : Grid)
    (a b : Nat) (hg : g a b = none) : writeColor w h cells col g a b = none := by
  rcases writeColor_cases w h col cells g a b with h1 | ⟨gr, hgr, -⟩
  · rw [h1, hg]
  · rw [hgr] at hg; cases hg

/-! ## Elimination loop characterization -/

/-- Countdown decrement applied to scheduled components by one
elimination tick. -/
def decCountdown (c : ConnectedComponent) : ConnectedComponent :=
  if 0 ≤ c.eliminationCountdown
  then { c with eliminationCountdown := c.eliminationCountdown - 1 }
  else c

theorem elimStep_idle (w h : Nat) (acc : ElimAcc) (c : ConnectedComponent)
    (hc : c.eliminationCountdown < 0) :
    elimStep w h acc c = { acc with comps := acc.comps ++ [c] } := by
  unfold elimStep
  rw [if_pos hc]

theorem elimStep_blink (w h : Nat) (acc : ElimAcc) (c : ConnectedComponent)
    (hc : 1 ≤ c.eliminationCountdown) :
    elimStep w h acc c =
      { grid := writeColor w h c.cells (getComponentDisplayColor c) acc.grid,
        comps := acc.comps ++ [{ c with eliminationCountdown := c.eliminationCountdown - 1 }],
        eliminated := acc.eliminated, blinking := true } := by
  unfold elimStep
  rw [if_neg (by omega), if_neg (by omega)]

theorem elimStep_zero (w h : Nat) (acc : ElimAcc) (c : ConnectedComponent)
    (hc : c.eliminationCountdown = 0) :
    elimStep w h acc c =
      { grid := clearCells w h c.cells
          (writeColor w h c.cells (getComponentDisplayColor c) acc.grid),
        comps := acc.comps, eliminated := true, blinking := true } := by
  unfold elimStep
  rw [if_neg (by omega), if_pos (by omega)]

/-- An empty slot stays empty through any run of the elimination loop. -/
theorem elimFold_none (w h : Nat) :
    ∀ (L : List ConnectedComponent) (acc : ElimAcc) (a b : Nat),
      acc.grid a b = none → ((L.foldl (elimStep w h) acc).grid a b) = none := by
  intro L
  induction L with
  | nil => intro acc a b hg; exact hg
  | cons c rest ih =>
    intro acc a b hg
    rw [List.foldl_cons]
    refine ih _ a b ?_
    unfold elimStep
    by_cases h1 : c.eliminationCountdown < 0
    · rw [if_pos h1]; exact hg
    · rw [if_neg h1]
      by_cases h2 : c.eliminationCountdown - 1 < 0
      · rw [if_pos h2]
        exact clearCells_none _ _ _ _ _ _ (writeColor_none _ _ _ _ _ _ _ hg)
      · rw [if_neg h2]
        exact writeColor_none _ _ _ _ _ _ _ hg

/-- Blink tick of the elimination loop: every component has an idle or
strictly positive countdown, so nothing is eliminated; scheduled
components are recolored and decremented in place. -/
theorem elimFold_blink (w h : Nat) :
    ∀ (L : List ConnectedComponent)
      (hL : ∀ c ∈ L, c.eliminationCountdown < 0 ∨ 1 ≤ c.eliminationCountdown)
      (acc : ElimAcc),
      (L.foldl (elimStep w h) acc).comps = acc.comps ++ L.map decCountdown ∧
      (L.foldl (elimStep w h) acc).eliminated = acc.eliminated ∧
      (L.foldl (elimStep w h) acc).blinking =
        (acc.blinking || L.any fun c => decide (0 ≤ c.eliminationCountdown)) ∧
      (∀ a b, ((L.foldl (elimStep w h) acc).grid a b).isSome = (acc.grid a b).isSome) ∧
      (∀ a b, (∀ c ∈ L, 0 ≤ c.eliminationCountdown → (a, b) ∉ c.cells) →
        (L.foldl (elimStep w h) acc).grid a b = acc.grid a b) := by
  intro L
  induction L with
  | nil => intro hL acc; simp
  | cons c rest ih =>
    intro hL acc
    have hc := hL c (List.mem_cons_self _ _)
    have hrest : ∀ d ∈ rest, d.eliminationCountdown < 0 ∨ 1 ≤ d.eliminationCountdown :=
      fun d hd => hL d (List.mem_cons_of_mem _ hd)
    rw [List.foldl_cons]
    rcases hc with hc | hc
    · rw [elimStep_idle w h acc c hc]
      rcases ih hrest { acc with comps := acc.comps ++ [c] } with ⟨h1, h2, h3, h4, h5⟩
      refine ⟨?_, h2, ?_, h4, ?_⟩
      · rw [h1]
        have : decCountdown c = c := by unfold decCountdown; rw [if_neg (by omega)]
        simp [this]
      · rw [h3]
        have : decide (0 ≤ c.eliminationCountdown) = false := by
          simp; omega
        simp [this]
      · intro a b hout
        exact h5 a b (fun d hd => hout d (List.mem_cons_of_mem _ hd))
    · rw [elimStep_blink w h acc c hc]
      rcases ih hrest _ with ⟨h1, h2, h3, h4, h5⟩
      refine ⟨?_, h2, ?_, ?_, ?_⟩
      · rw [h1]
        have : decCountdown c = { c with eliminationCountdown := c.eliminationCountdown - 1 } := by
          unfold decCountdown; rw [if_pos (by omega)]
        simp [this]
      · rw [h3]
        have : decide (0 ≤ c.eliminationCountdown) = true := by simp; omega
        simp [this]
      · intro a b
        rw [h4 a b]
        exact writeColor_isSome _ _ _ _ _ _ _
      · intro a b hout
        rw [h5 a b (fun d hd => hout d (List.mem_cons_of_mem _ hd))]
        exact writeColor_not_mem _ _ _ _ _ _ _
          (hout c (List.mem_cons_self _ _) (by omega))

/-- Elimination tick of the loop: every countdown is idle or exactly 0;
all scheduled components are removed and their in-range cells cleared;
cells of no scheduled component are untouched. -/
theorem elimFold_zero (w h : Nat) :
    ∀ (L : List ConnectedComponent)
      (hL : ∀ c ∈ L, c.eliminationCountdown < 0 ∨ c.eliminationCountdown = 0)
      (acc : ElimAcc),
      (L.foldl (elimStep w h) acc).comps =
        acc.comps ++ L.filter (fun c => decide (c.eliminationCountdown < 0)) ∧
      (L.foldl (elimStep w h) acc).eliminated =
        (acc.eliminated || L.any fun c => decide (0 ≤ c.eliminationCountdown)) ∧
      (L.foldl (elimStep w h) acc).blinking =
        (acc.blinking || L.any fun c => decide (0 ≤ c.eliminationCountdown)) ∧
      (∀ a b, (∀ c ∈ L, 0 ≤ c.eliminationCountdown → (a, b) ∉ c.cells) →
        (L.foldl (elimStep w h) acc).grid a b = acc.grid a b) ∧
      (∀ a b, a < w → b < h → (∃ c ∈ L, 0 ≤ c.eliminationCountdown ∧ (a, b) ∈ c.cells) →
        (L.foldl (elimStep w h) acc).grid a b = none) := by
  intro L
  induction L with
  | nil =>
    intro hL acc
    refine ⟨by simp, by simp, by simp, fun a b _ => rfl, ?_⟩
    rintro a b _ _ ⟨c, hc, -⟩
    cases hc
  | cons c rest ih =>
    intro hL acc
    have hc := hL c (List.mem_cons_self _ _)
    have hrest : ∀ d ∈ rest, d.eliminationCountdown < 0 ∨ d.eliminationCountdown = 0 :=
      fun d hd => hL d (List.mem_cons_of_mem _ hd)
    rw [List.foldl_cons]
    rcases hc with hc | hc
    · rw [elimStep_idle w h acc c hc]
      rcases ih hrest { acc with comps := acc.comps ++ [c] } with ⟨h1, h2, h3, h4, h5⟩
      refine ⟨?_, ?_, ?_, ?_, ?_⟩
      · rw [h1]
        have : decide (c.eliminationCountdown < 0) = true := by simp; omega
        simp [this]
      · rw [h2]
        have : decide (0 ≤ c.eliminationCountdown) = false := by simp; omega
        simp [this]
      · rw [h3]
        have : decide (0 ≤ c.eliminationCountdown) = false := by simp; omega
        simp [this]
      · intro a b hout
        exact h4 a b (fun d hd => hout d (List.mem_cons_of_mem _ hd))
      · rintro a b ha hb ⟨d, hd, hdc, hdm⟩
        rcases List.mem_cons.mp hd with rfl | hd
        · omega
        · exact h5 a b ha hb ⟨d, hd, hdc, hdm⟩
    · rw [elimStep_zero w h acc c hc]
      rcases ih hrest _ with ⟨h1, h2, h3, h4, h5⟩
      refine ⟨?_, ?_, ?_, ?_, ?_⟩
      · rw [h1]
        have : decide (c.eliminationCountdown < 0) = false := by simp; omega
        simp [this]
      · rw [h2]
        have hdec : decide (0 ≤ c.eliminationCountdown) = true := by simp; omega
        simp [hdec]
      · rw [h3]
        have hdec : decide (0 ≤ c.eliminationCountdown) = true := by simp; omega
        simp [hdec]
      · intro a b hout
        rw [h4 a b (fun d hd => hout d (List.mem_cons_of_mem _ hd))]
        have hnm : (a, b) ∉ c.cells := hout c (List.mem_cons_self _ _) (by omega)
        show clearCells w h c.cells
          (writeColor w h c.cells (getComponentDisplayColor c) acc.grid) a b = acc.grid a b
        rw [clearCells_not_mem _ _ _ _ _ _ hnm,
          writeColor_not_mem _ _ _ _ _ _ _ hnm]
      · rintro a b ha hb ⟨d, hd, hdc, hdm⟩
        rcases List.mem_cons.mp hd with rfl | hd
        · refine elimFold_none w h rest _ a b ?_
          exact clearCells_mem _ _ _ _ _ _ hdm ha hb
        · exact h5 a b ha hb ⟨d, hd, hdc, hdm⟩

/-- Idle run of the elimination loop: no scheduled components at all. -/
theorem elimFold_idle (w h : Nat) (L : List ConnectedComponent)
    (hL : ∀ c ∈ L, c.eliminationCountdown < 0) (acc : ElimAcc) :
    L.foldl (elimStep w h) acc = { acc with comps := acc.comps ++ L } := by
  induction L generalizing acc with
  | nil => simp
  | cons c rest ih =>
    have hc := hL c (List.mem_cons_self _ _)
    rw [List.foldl_cons, elimStep_idle w h acc c hc,
      ih (fun d hd => hL d (List.mem_cons_of_mem _ hd))]
    simp

/-! ## Component rebuild well-formedness -/

/-- Cells produced by the neighbor filter are in range and occupied. -/
theorem sameColorNeighbors_good (g : Grid) (comps : List ConnectedComponent)
    (w h : Nat) (p q : Nat × Nat) (hq : q ∈ sameColorNeighbors g comps w h p) :
    q.1 < w ∧ q.2 < h ∧ (g q.1 q.2).isSome := by
  unfold sameColorNeighbors at hq
  rcases List.mem_filter.mp hq with ⟨hmem, hpred⟩
  rcases List.mem_filterMap.mp hmem with ⟨d, -, hd⟩
  unfold nbrPos at hd
  dsimp only at hd
  split at hd
  · rename_i hcond
    rcases Option.some.inj hd with rfl
    refine ⟨?_, ?_, ?_⟩
    · dsimp only; omega
    · dsimp only; omega
    · have := (Bool.and_eq_true _ _).mp hpred
      exact this.1
  · cases hd

/-- Everything collected by the component closure is in range and
occupied. -/
theorem growComponent_good (g : Grid) (comps : List ConnectedComponent)
    (w h : Nat) :
    ∀ (fuel : Nat) (frontier acc : List (Nat × Nat)),
      (∀ q ∈ acc, q.1 < w ∧ q.2 < h ∧ (g q.1 q.2).isSome) →
      ∀ q ∈ growComponent g comps w h fuel frontier acc,
        q.1 < w ∧ q.2 < h ∧ (g q.1 q.2).isSome := by
  intro fuel
  induction fuel with
  | zero => intro frontier acc hacc q hq; exact hacc q hq
  | succ n ih =>
    intro frontier acc hacc q hq
    rw [growComponent] at hq
    have hnewly : ∀ r ∈ frontier.foldl (fun nl p =>
        nl ++ (sameColorNeighbors g comps w h p).filter fun q =>
          !(acc.any fun r => decide (r = q)) && !(nl.any fun r => decide (r = q))) [],
        r.1 < w ∧ r.2 < h ∧ (g r.1 r.2).isSome := by
      have haux : ∀ (front : List (Nat × Nat)) (nl : List (Nat × Nat)),
          (∀ r ∈ nl, r.1 < w ∧ r.2 < h ∧ (g r.1 r.2).isSome) →
          ∀ r ∈ front.foldl (fun nl p =>
            nl ++ (sameColorNeighbors g comps w h p).filter fun q =>
              !(acc.any fun r => decide (r = q)) && !(nl.any fun r => decide (r = q))) nl,
            r.1 < w ∧ r.2 < h ∧ (g r.1 r.2).isSome := by
        intro front
        induction front with
        | nil => intro nl hnl r hr; exact hnl r hr
        | cons p rest ihf =>
          intro nl hnl r hr
          rw [List.foldl_cons] at hr
          refine ihf _ ?_ r hr
          intro r2 hr2
          rcases List.mem_append.mp hr2 with hr2 | hr2
          · exact hnl r2 hr2
          · exact sameColorNeighbors_good g comps w h p r2 (List.mem_filter.mp hr2).1
      exact haux frontier [] (by intro r hr; cases hr)
    split at hq
    · exact hacc q hq
    · exact ih _ _ (by
        intro r hr
        rcases List.mem_append.mp hr with hr | hr
        · exact hacc r hr
        · exact hnewly r hr) q hq

/-- Every component produced by a rebuild has in-range occupied cells,
an idle countdown and a nonzero original color. -/
theorem findCC_good (g : Grid) (comps0 : List ConnectedComponent) (w h : Nat) :
    ∀ c ∈ findConnectedComponents g comps0 w h,
      (∀ q ∈ c.cells, q.1 < w ∧ q.2 < h ∧ (g q.1 q.2).isSome) ∧
      c.eliminationCountdown = -1 ∧ c.originalColor ≠ 0 := by
  unfold findConnectedComponents
  have haux : ∀ (l : List (Nat × Nat)) (st : List (Nat × Nat) × List ConnectedComponent × Nat),
      (∀ p ∈ l, p.1 < w ∧ p.2 < h) →
      (∀ c ∈ st.2.1,
        (∀ q ∈ c.cells, q.1 < w ∧ q.2 < h ∧ (g q.1 q.2).isSome) ∧
        c.eliminationCountdown = -1 ∧ c.originalColor ≠ 0) →
      ∀ c ∈ (l.foldl (findCCStep g comps0 w h) st).2.1,
        (∀ q ∈ c.cells, q.1 < w ∧ q.2 < h ∧ (g q.1 q.2).isSome) ∧
        c.eliminationCountdown = -1 ∧ c.originalColor ≠ 0 := by
    intro l
    induction l with
    | nil => intro st _ hst c hc; exact hst c hc
    | cons p rest ihl =>
      intro st hl hst c hc
      rw [List.foldl_cons] at hc
      have hp := hl p (List.mem_cons_self _ _)
      have hrest : ∀ q ∈ rest, q.1 < w ∧ q.2 < h :=
        fun q hq => hl q (List.mem_cons_of_mem _ hq)
      unfold findCCStep at hc
      by_cases hcond : ((g p.1 p.2).isSome && !(st.1.any fun r => decide (r = p))) = true
      · rw [if_pos hcond] at hc
        by_cases hiso : (sameColorNeighbors g comps0 w h p).isEmpty = true
        · rw [if_pos hiso] at hc
          exact ihl _ hrest hst c hc
        rw [if_neg hiso] at hc
        refine ihl _ hrest ?_ c hc
        intro c2 hc2
        rcases List.mem_append.mp hc2 with hc2 | hc2
        · exact hst c2 hc2
        · rcases List.mem_singleton.mp hc2 with rfl
          refine ⟨?_, rfl, ?_⟩
          · refine growComponent_good g comps0 w h (w * h) [p] [p] ?_
            intro q hq
            rcases List.mem_singleton.mp hq with rfl
            exact ⟨hp.1, hp.2, ((Bool.and_eq_true _ _).mp hcond).1⟩
          · dsimp only
            split
            · exact one_ne_zero
            · assumption
      · rw [if_neg hcond] at hc
        exact ihl _ hrest hst c hc
  intro c hc
  refine haux (scanPos w h) ([], [], 1) ?_ ?_ c hc
  · intro p hp
    exact mem_scanPos.mp hp
  · intro c2 hc2
    cases hc2

/-! ## Step phase lemmas -/

theorem processElim_idle (s : GameState)
    (h : ∀ c ∈ s.connectedComponents, c.eliminationCountdown < 0) :
    processEliminationCountdowns s =
      ({ s with hasActiveEliminations := false }, false, false) := by
  unfold processEliminationCountdowns
  rw [elimFold_idle s.width s.height _ h]
  simp

/-- The wall-to-wall scheduling map applied after a rebuild. -/
def scheduleComps (L : List ConnectedComponent) : List ConnectedComponent :=
  L.map fun c =>
    if c.touchesLeftWall && c.touchesRightWall then
      { c with eliminationCountdown := ELIMINATION_TICKS - 1 }
    else c

/-- Whether some rebuilt component touches both walls. -/
def hasWallBoth (L : List ConnectedComponent) : Bool :=
  L.any fun c => c.touchesLeftWall && c.touchesRightWall

theorem updateCC_idle (s : GameState)
    (h : ∀ c ∈ s.connectedComponents, c.eliminationCountdown < 0) :
    updateConnectedComponents s =
      ({ s with
          connectedComponents := scheduleComps
            (findConnectedComponents s.grid s.connectedComponents s.width s.height),
          hasActiveEliminations := hasWallBoth
            (findConnectedComponents s.grid s.connectedComponents s.width s.height) },
        false,
        hasWallBoth
          (findConnectedComponents s.grid s.connectedComponents s.width s.height)) := by
  unfold updateConnectedComponents
  rw [processElim_idle s h]
  simp [scheduleComps, hasWallBoth]

theorem step_gameOver (s : GameState) (h : s.isGameOver = true) :
    step s = (s, false) := by
  unfold step
  rw [if_pos h]

theorem resetGameOver_isGameOver (s : GameState) :
    (resetGameOver s).isGameOver = false := rfl

/-- Any run of the elimination loop leaves slots alone that belong to
no component of the list. -/
theorem elimFold_grid_outside (w h : Nat) :
    ∀ (L : List ConnectedComponent) (acc : ElimAcc) (a b : Nat),
      (∀ c ∈ L, (a, b) ∉ c.cells) →
      (L.foldl (elimStep w h) acc).grid a b = acc.grid a b := by
  intro L
  induction L with
  | nil => intro acc a b _; rfl
  | cons c rest ih =>
    intro acc a b hout
    rw [List.foldl_cons]
    rw [ih _ a b (fun d hd => hout d (List.mem_cons_of_mem _ hd))]
    have hnm : (a, b) ∉ c.cells := hout c (List.mem_cons_self _ _)
    unfold elimStep
    by_cases h1 : c.eliminationCountdown < 0
    · rw [if_pos h1]
    · rw [if_neg h1]
      by_cases h2 : c.eliminationCountdown - 1 < 0
      · rw [if_pos h2]
        show clearCells w h c.cells
          (writeColor w h c.cells (getComponentDisplayColor c) acc.grid) a b = acc.grid a b
        rw [clearCells_not_mem _ _ _ _ _ _ hnm,
          writeColor_not_mem _ _ _ _ _ _ _ hnm]
      · rw [if_neg h2]
        exact writeColor_not_mem _ _ _ _ _ _ _ hnm

/-- Slots not written by a constant-grain write loop are untouched. -/
theorem foldl_setG_const_not_mem (v : Option SandGrain) :
    ∀ (l : List (Nat × Nat)) (g : Grid) (a b : Nat), (a, b) ∉ l →
      (l.foldl (fun g p => setG g p.1 p.2 v) g) a b = g a b := by
  intro l
  induction l with
  | nil => intro g a b _; rfl
  | cons q rest ih =>
    intro g a b hnm
    rw [List.foldl_cons, ih _ a b (fun hc => hnm (List.mem_cons_of_mem _ hc))]
    exact setG_ne _ _ _ _ _ _ (by
      rintro ⟨rfl, rfl⟩
      exact hnm (by
        have : q = (q.1, q.2) := rfl
        rw [← this]
        exact List.mem_cons_self _ _))

/-- Slots written by a constant-grain write loop hold the constant. -/
theorem foldl_setG_const_mem (v : Option SandGrain) :
    ∀ (l : List (Nat × Nat)) (g : Grid) (a b : Nat), (a, b) ∈ l →
      (l.foldl (fun g p => setG g p.1 p.2 v) g) a b = v := by
  intro l
  induction l with
  | nil => intro g a b hm; cases hm
  | cons q rest ih =>
    intro g a b hm
    rw [List.foldl_cons]
    by_cases hrest : (a, b) ∈ rest
    · exact ih _ a b hrest
    · have hq : q = (a, b) := by
        rcases List.mem_cons.mp hm with hc | hc
        · exact hc.symm
        · exact absurd hc hrest
      rw [foldl_setG_const_not_mem v rest _ a b hrest, hq, setG_at]

/-- Every position written by a spawn lies inside the grid. -/
theorem spawnCells_inRange (ty : TetrominoType) (startX w h : Nat) :
    ∀ p ∈ spawnCells ty startX w h, p.1 < w ∧ p.2 < h := by
  intro p hp
  unfold spawnCells at hp
  rcases List.mem_filterMap.mp hp with ⟨q, -, hq⟩
  split at hq
  · rename_i hcond
    rcases Option.some.inj hq with rfl
    constructor
    · dsimp only; omega
    · dsimp only; omega
  · cases hq

/-! ## Claim theorems -/

/-- C9: `getCell` on out-of-range coordinates returns 0 (empty) rather
than failing, and `setCell` on out-of-range coordinates or an invalid
value returns false and leaves the whole state (hence every cell)
unchanged. -/
theorem claim_C9 :
    (∀ (s : GameState) (x y : Int), ¬ isValidPosition s.width s.height x y →
      getCell s x y = 0) ∧
    (∀ (s : GameState) (x y v : Int),
      ¬ isValidPosition s.width s.height x y ∨ ¬ isValidCellValue v →
      setCell s x y v = (s, false)) := by
  constructor
  · intro s x y h
    unfold getCell
    rw [if_neg h]
  · intro s x y v h
    unfold setCell
    rw [if_neg (by tauto)]

/-- Witness for C9 at concrete inputs. -/
theorem claim_C9_witness :
    (¬ isValidPosition (initState 2 2).width (initState 2 2).height (-1) 0 ∧
      getCell (initState 2 2) (-1) 0 = 0) ∧
    (¬ isValidCellValue 7 ∧ setCell (initState 2 2) 0 0 7 = (initState 2 2, false)) :=
  ⟨⟨by decide, claim_C9.1 _ _ _ (by decide)⟩,
   ⟨by decide, claim_C9.2 _ _ _ _ (Or.inr (by decide))⟩⟩

/-- C7: spawning is rejected with no state change when a piece may not
be introduced or the shape footprint is wider than the grid; an
accepted spawn never writes outside the grid. -/
theorem claim_C7 :
    (∀ (s : GameState) (ty : TetrominoType) (color startX : Nat),
      s.canSpawnNewPiece = false →
      startTetrominoSpawn s ty color startX = (s, false)) ∧
    (∀ (s : GameState) (ty : TetrominoType) (color startX : Nat),
      s.width < ((TETROMINO_SHAPES ty).headD []).length * TETROMINO_BLOCK_SIZE →
      startTetrominoSpawn s ty color startX = (s, false)) ∧
    (∀ (s : GameState) (ty : TetrominoType) (color startX : Nat) (a b : Nat),
      (startTetrominoSpawn s ty color startX).2 = true →
      ¬(a < s.width ∧ b < s.height) →
      (startTetrominoSpawn s ty color startX).1.grid a b = s.grid a b) := by
  refine ⟨?_, ?_, ?_⟩
  · intro s ty color startX h
    unfold startTetrominoSpawn
    rw [if_pos (by rw [h]; rfl)]
  · intro s ty color startX h
    unfold startTetrominoSpawn
    by_cases hcs : (!s.canSpawnNewPiece) = true
    · rw [if_pos hcs]
    · rw [if_neg hcs, if_pos (by push_cast; omega)]
  · intro s ty color startX a b _ hout
    unfold startTetrominoSpawn
    by_cases hcs : (!s.canSpawnNewPiece) = true
    · rw [if_pos hcs]
    · rw [if_neg hcs]
      by_cases hw : ((s.width : Int) -
          (((TETROMINO_SHAPES ty).headD []).length * TETROMINO_BLOCK_SIZE : Nat) < 0)
      · rw [if_pos hw]
      · rw [if_neg hw]
        dsimp only
        refine foldl_setG_const_not_mem _ _ _ _ _ ?_
        intro hc
        exact hout ⟨(spawnCells_inRange ty startX s.width s.height _ hc).1,
          (spawnCells_inRange ty startX s.width s.height _ hc).2⟩

/-- Witness for C7 at concrete inputs. -/
theorem claim_C7_witness :
    ({ initState 2 2 with canSpawnNewPiece := false }).canSpawnNewPiece = false ∧
    startTetrominoSpawn { initState 2 2 with canSpawnNewPiece := false } .I 1 0 =
      ({ initState 2 2 with canSpawnNewPiece := false }, false) ∧
    (initState 2 2).width <
      ((TETROMINO_SHAPES .I).headD []).length * TETROMINO_BLOCK_SIZE ∧
    startTetrominoSpawn (initState 2 2) .I 1 0 = (initState 2 2, false) ∧
    (startTetrominoSpawn (initState 20 6) .I 1 0).2 = true ∧
    ¬(25 < (initState 20 6).width ∧ 0 < (initState 20 6).height) ∧
    (startTetrominoSpawn (initState 20 6) .I 1 0).1.grid 25 0 =
      (initState 20 6).grid 25 0 :=
  ⟨rfl, claim_C7.1 _ _ _ _ rfl, by decide, claim_C7.2.1 _ _ _ _ (by decide),
   by decide, by decide, claim_C7.2.2 _ _ _ _ 25 0 (by decide) (by decide)⟩

/-- C4: the display color of a scheduled component follows the blink
formula (white while the documented parity is odd, original otherwise;
`ticksPassed = ELIMINATION_TICKS - countdown`, interval 5); an idle
component displays its original color; and the elimination tick writes
exactly that display color into every member cell of a still-blinking
component. The countdown bound `≤ ELIMINATION_TICKS` covers every
countdown the engine ever stores (they start at 19 and only
decrement). -/
theorem claim_C4 :
    (∀ c : ConnectedComponent, 0 ≤ c.eliminationCountdown →
      c.eliminationCountdown ≤ ELIMINATION_TICKS →
      getComponentDisplayColor c =
        if ((ELIMINATION_TICKS - c.eliminationCountdown).toNat / 5) % 2 = 1
        then WHITE_COLOR else c.originalColor) ∧
    (∀ c : ConnectedComponent, c.eliminationCountdown = -1 →
      getComponentDisplayColor c = c.originalColor) ∧
    (∀ (s : GameState) (c : ConnectedComponent) (gr : SandGrain) (a b : Nat),
      List.Pairwise (fun c1 c2 => ∀ q ∈ c1.cells, q ∉ c2.cells)
        s.connectedComponents →
      c ∈ s.connectedComponents → 1 ≤ c.eliminationCountdown →
      (a, b) ∈ c.cells → a < s.width → b < s.height → s.grid a b = some gr →
      (processEliminationCountdowns s).1.grid a b =
        some { gr with color := getComponentDisplayColor c }) := by
  refine ⟨?_, ?_, ?_⟩
  · intro c h0 h20
    obtain ⟨cid, cells, oc, tl, tr, cd⟩ := c
    dsimp only at h0 h20 ⊢
    unfold getComponentDisplayColor
    dsimp only
    rw [if_pos h0]
    refine if_congr ?_ rfl rfl
    unfold ELIMINATION_TICKS at h20 ⊢
    unfold BLINK_INTERVAL
    interval_cases cd <;> decide
  · intro c h
    unfold getComponentDisplayColor
    rw [h]
    norm_num
  · intro s c gr a b hpw hc hcd hm ha hb hg
    rcases List.append_of_mem hc with ⟨l1, l2, hsplit⟩
    unfold processEliminationCountdowns
    dsimp only
    rw [hsplit]
    rw [hsplit] at hpw
    rcases List.pairwise_append.mp hpw with ⟨hp1, hp2, hcross⟩
    have hl1 : ∀ d ∈ l1, (a, b) ∉ d.cells := by
      intro d hd hmem
      exact hcross d hd c (List.mem_cons_self _ _) (a, b) hmem hm
    have hl2 : ∀ d ∈ l2, (a, b) ∉ d.cells := by
      intro d hd
      exact (List.pairwise_cons.mp hp2).1 d hd (a, b) hm
    rw [List.foldl_append, List.foldl_cons]
    rw [elimFold_grid_outside s.width s.height l2 _ a b hl2]
    rw [elimStep_blink s.width s.height _ c hcd]
    dsimp only
    rw [writeColor_mem_occ s.width s.height _ c.cells _ a b gr hm ha hb
      (by rw [elimFold_grid_outside s.width s.height l1 _ a b hl1]; exact hg)]

/-- Witness for C4 at concrete inputs. -/
theorem claim_C4_witness :
    ((0 : Int) ≤ (12 : Int) ∧ (12 : Int) ≤ ELIMINATION_TICKS ∧
      getComponentDisplayColor ⟨1, [(0, 0)], 2, true, true, 12⟩ =
        if ((ELIMINATION_TICKS - 12).toNat / 5) % 2 = 1 then WHITE_COLOR else 2) ∧
    (getComponentDisplayColor ⟨1, [(0, 0)], 2, true, true, -1⟩ = 2) ∧
    ((processEliminationCountdowns
        { editState 1 1 (setG emptyGrid 0 0 (some (createGrain 2 false))) with
          connectedComponents := [⟨1, [(0, 0)], 2, true, true, 12⟩] }).1.grid 0 0 =
      some { createGrain 2 false with
              color := getComponentDisplayColor ⟨1, [(0, 0)], 2, true, true, 12⟩ }) :=
  ⟨⟨by decide, by decide, claim_C4.1 _ (by decide) (by decide)⟩,
   claim_C4.2.1 _ rfl,
   claim_C4.2.2 _ _ _ 0 0 (by simp) (List.mem_singleton.mpr rfl) (by decide)
     (List.mem_singleton.mpr rfl) (by decide) (by decide) (by
       show setG emptyGrid 0 0 (some (createGrain 2 false)) 0 0 = _
       rw [setG_at])⟩

/-! ## Counterexample states for corrected claims -/

/-- Claim C2's counterexample state: a 2 by 2 grid whose top row is
entirely filled with sand (two colors, so no wall-to-wall component)
and whose bottom row is empty. -/
def c2state : GameState :=
  editState 2 2 (setG (setG emptyGrid 0 1 (some (createGrain 1 false)))
    1 1 (some (createGrain 2 false)))

/-- C2 as stated is false: with the entire top row filled with sand,
one `step()` simply lets the sand fall and `isGameOver()` stays false. -/
theorem claim_C2_counterexample :
    (c2state.grid 0 (c2state.height - 1)).isSome ∧
    (c2state.grid 1 (c2state.height - 1)).isSome ∧
    c2state.width = 2 ∧
    getIsGameOver (stepState c2state) = false := by decide

set_option maxRecDepth 4000 in
/-- C3 as stated is false: immediately after the accepting call on an
empty 20 by 6 grid, the whole I piece (100 cells, reaching 4 rows below
the topmost row) is present, not at most one 20-cell sand-row. -/
theorem claim_C3_counterexample :
    (startTetrominoSpawn (editState 20 6 emptyGrid) .I 1 0).2 = true ∧
    getCell (startTetrominoSpawn (editState 20 6 emptyGrid) .I 1 0).1 0 1 = 1 ∧
    countOcc (startTetrominoSpawn (editState 20 6 emptyGrid) .I 1 0).1 = 100 := by
  decide

/-- C8's counterexample state: a falling cell at (1, 1) blocked below
by settled sand at (1, 0), with the down-left diagonal open. -/
def c8state : GameState :=
  { editState 2 2 (setG (setG emptyGrid 1 0 (some (createGrain 2 false)))
      1 1 (some (createGrain 3 false))) with
    fallingPieceCells := [(1, 1)], canSpawnNewPiece := false }

/-- C8 as stated is false: `softDrop()` returns false (the piece
settles), yet the falling cell has moved (diagonally, during the forced
internal `step()`) from (1, 1) to (0, 0). -/
theorem claim_C8_counterexample :
    (softDrop c8state).2 = false ∧
    (softDrop c8state).1.grid 0 0 = some { color := 3, speed := 1, ticks := 1 } ∧
    (softDrop c8state).1.grid 1 1 = none := by decide

/-! ## Physics pass: mass conservation -/

theorem mem_of_suffix {α : Type} {l : List α} {p : α} {rest : List α}
    (h : (p :: rest) <:+ l) : p ∈ l :=
  h.subset (List.mem_cons_self _ _)

theorem suffix_rel_of_pairwise {α : Type} {R : α → α → Prop} {l : List α}
    (hpw : l.Pairwise R) {p : α} {rest : List α} (h : (p :: rest) <:+ l) :
    ∀ q ∈ rest, R p q :=
  (List.pairwise_cons.mp (hpw.sublist h.sublist)).1

theorem scanIdx_lt_below (w : Nat) (t p : Nat × Nat) (h1 : t.1 < w)
    (h2 : p.2 = t.2 + 1) : scanIdx w t < scanIdx w p := by
  unfold scanIdx
  rw [h2, Nat.succ_mul]
  omega

theorem physCell_none (s : GameState) (acc : PhysAcc) (p : Nat × Nat)
    (hg : s.grid p.1 p.2 = none) : physCell s acc p = acc := by
  unfold physCell
  rw [hg]

/-- Each occupied source cell makes exactly one write into the next
grid: either in place, or into a checked-free slot one row below. -/
theorem physCell_spec (s : GameState) (acc : PhysAcc) (p : Nat × Nat)
    (gr : SandGrain) (hg : s.grid p.1 p.2 = some gr) :
    ∃ (t : Nat × Nat) (gr' : SandGrain),
      (physCell s acc p).next = setG acc.next t.1 t.2 (some gr') ∧
      gr'.color = gr.color ∧
      (t = p ∨ (t.1 < s.width ∧ p.2 = t.2 + 1 ∧ acc.next t.1 t.2 = none)) := by
  unfold physCell
  rw [hg]
  dsimp only
  by_cases ht : gr.ticks - 1 ≤ 0
  · rw [if_pos ht]
    set g0 : SandGrain :=
      if shouldTransitionSpeed s p gr (s.fallingPieceCells.any fun r => decide (r = p)) then
        { gr with speed := BASE_GRAIN_SPEED, ticks := (BASE_GRAIN_SPEED : Int) }
      else { gr with ticks := gr.ticks - 1 } with hg0
    cases hf : List.find? (fun q =>
        decide (0 ≤ q.2) && decide (0 ≤ q.1) && decide (q.1 < (s.width : Int)) &&
        (acc.next q.1.toNat q.2.toNat).isNone)
        [((p.1 : Int), (p.2 : Int) - 1), ((p.1 : Int) - 1, (p.2 : Int) - 1),
         ((p.1 : Int) + 1, (p.2 : Int) - 1)] with
    | none =>
      refine ⟨p, { g0 with ticks := (g0.speed : Int) }, rfl, ?_, Or.inl rfl⟩
      rw [hg0]
      split
      · rfl
      · rfl
    | some q =>
      have hpred := List.find?_some hf
      have hmem := List.mem_of_find?_eq_some hf
      rcases Bool.and_eq_true _ _ |>.mp hpred with ⟨hpred3, hnone⟩
      rcases Bool.and_eq_true _ _ |>.mp hpred3 with ⟨hpred2, hxlt⟩
      rcases Bool.and_eq_true _ _ |>.mp hpred2 with ⟨hy0, hx0⟩
      have hy0' : (0 : Int) ≤ q.2 := of_decide_eq_true hy0
      have hx0' : (0 : Int) ≤ q.1 := of_decide_eq_true hx0
      have hxlt' : q.1 < (s.width : Int) := of_decide_eq_true hxlt
      have hnone' : acc.next q.1.toNat q.2.toNat = none :=
        Option.isNone_iff_eq_none.mp hnone
      refine ⟨(q.1.toNat, q.2.toNat), _, rfl, ?_, Or.inr ⟨?_, ?_, hnone'⟩⟩
      · show SandGrain.color { g0 with ticks := (g0.speed : Int) } = gr.color
        rw [hg0]
        split
        · rfl
        · rfl
      · dsimp only; omega
      · dsimp only
        simp only [List.mem_cons, List.not_mem_nil, or_false] at hmem
        rcases hmem with rfl | rfl | rfl <;> dsimp only at hy0' ⊢ <;> omega
  · rw [if_neg ht]
    refine ⟨p, _, rfl, ?_, Or.inl rfl⟩
    split
    · rfl
    · rfl

/-- The physics pass conserves the number of occupied cells. -/
theorem simulatePhysics_count (s : GameState) :
    (scanPos s.width s.height).countP
      (fun p => ((simulatePhysics s).next p.1 p.2).isSome) =
    (scanPos s.width s.height).countP (fun p => (s.grid p.1 p.2).isSome) := by
  set Inv : PhysAcc → List (Nat × Nat) → Prop := fun acc rest =>
    (∀ q ∈ rest, acc.next q.1 q.2 = none) ∧
    (scanPos s.width s.height).countP (fun p => (acc.next p.1 p.2).isSome) +
      rest.countP (fun p => (s.grid p.1 p.2).isSome) =
      (scanPos s.width s.height).countP (fun p => (s.grid p.1 p.2).isSome) with hInv
  have hfin : Inv ((scanPos s.width s.height).foldl (physCell s)
      { next := emptyGrid, falling := [], stuck := [], moved := false }) [] := by
    refine foldl_inv (physCell s) Inv (scanPos s.width s.height) ?_
      (scanPos s.width s.height) _ (List.suffix_refl _) ?_
    · intro acc p rest hsuf hacc
      have hrel : ∀ q ∈ rest, scanIdx s.width p < scanIdx s.width q :=
        suffix_rel_of_pairwise (scanPos_pairwise s.width s.height) hsuf
      have hpmem : p ∈ scanPos s.width s.height := mem_of_suffix hsuf
      have hprange := mem_scanPos.mp hpmem
      cases hg : s.grid p.1 p.2 with
      | none =>
        rw [physCell_none s acc p hg]
        refine ⟨fun q hq => hacc.1 q (List.mem_cons_of_mem _ hq), ?_⟩
        have hold := hacc.2
        rw [List.countP_cons] at hold
        simpa [hg] using hold
      | some gr =>
        rcases physCell_spec s acc p gr hg with ⟨t, gr2, hnext, -, hcase⟩
        have htrange : t.1 < s.width ∧ t.2 < s.height := by
          rcases hcase with rfl | ⟨h1, h2, -⟩
          · exact ⟨hprange.1, hprange.2⟩
          · exact ⟨h1, by omega⟩
        have htnone : acc.next t.1 t.2 = none := by
          rcases hcase with rfl | ⟨-, -, h3⟩
          · exact hacc.1 t (List.mem_cons_self _ _)
          · exact h3
        have htle : scanIdx s.width t ≤ scanIdx s.width p := by
          rcases hcase with rfl | ⟨h1, h2, -⟩
          · exact le_refl _
          · exact le_of_lt (scanIdx_lt_below s.width t p h1 h2)
        constructor
        · intro q hq
          rw [hnext]
          have hne : setG acc.next t.1 t.2 (some gr2) q.1 q.2 = acc.next q.1 q.2 := by
            refine setG_ne _ _ _ _ _ _ ?_
            rintro ⟨h1, h2⟩
            have hqt : t = q := by
              have hq1 : q = (q.1, q.2) := rfl
              have ht1 : t = (t.1, t.2) := rfl
              rw [hq1, ht1, h1, h2]
            have hlt := hrel q hq
            rw [hqt] at htle
            omega
          rw [hne]
          exact hacc.1 q (List.mem_cons_of_mem _ hq)
        · have hcnt : (scanPos s.width s.height).countP
              (fun p2 => ((physCell s acc p).next p2.1 p2.2).isSome) =
              (scanPos s.width s.height).countP
                (fun p2 => (acc.next p2.1 p2.2).isSome) + 1 := by
            refine countP_flip (scanPos s.width s.height)
              (scanPos_nodup s.width s.height) t
              (mem_scanPos.mpr htrange) _ _ ?_ ?_ ?_
            · intro q hq hqt
              rw [hnext]
              have hne : setG acc.next t.1 t.2 (some gr2) q.1 q.2 = acc.next q.1 q.2 := by
                refine setG_ne _ _ _ _ _ _ ?_
                rintro ⟨h1, h2⟩
                exact hqt (by
                  have hq1 : q = (q.1, q.2) := rfl
                  have ht1 : t = (t.1, t.2) := rfl
                  rw [hq1, ht1, h1, h2])
              rw [hne]
            · rw [htnone]; rfl
            · rw [hnext, setG_at]; rfl
          have hold := hacc.2
          rw [List.countP_cons] at hold
          simp only [hg, Option.isSome_some, if_true] at hold
          rw [hcnt]
          omega
    · constructor
      · intro q _; rfl
      · have hz : (scanPos s.width s.height).countP
            (fun p => ((emptyGrid : Grid) p.1 p.2).isSome) = 0 := by
          rw [List.countP_eq_zero]
          intro q _
          simp [emptyGrid]
        rw [hz]
        omega
  have hfin2 := hfin.2
  simp only [List.countP_nil, Nat.add_zero] at hfin2
  exact hfin2

/-- Speed transition does not change which slots are occupied. -/
theorem transition_isSome (u : GameState) (a b : Nat) :
    ((transitionSpawningGrainsToBaseSpeed u).grid a b).isSome = (u.grid a b).isSome := by
  unfold transitionSpawningGrainsToBaseSpeed
  dsimp only
  by_cases hr : a < u.width ∧ b < u.height
  · rw [if_pos hr]
    cases hg : u.grid a b with
    | none => rfl
    | some g =>
      by_cases hs : g.speed = SPAWNING_GRAIN_SPEED
      · simp [hs]
      · simp [hs]
  · rw [if_neg hr]

/-- The physics phase of a step preserves the occupied-cell count. -/
theorem stepPhysicsPhase_countOcc (s1 : GameState) (e : Bool) :
    countOcc (stepPhysicsPhase s1 e).1 = countOcc s1 := by
  unfold stepPhysicsPhase
  dsimp only
  have hcnt2 : countOcc
      { s1 with
          grid := (simulatePhysics s1).next,
          fallingPieceCells := (simulatePhysics s1).falling } = countOcc s1 :=
    simulatePhysics_count s1
  have hcnt3 : ∀ u : GameState,
      countOcc
        { transitionSpawningGrainsToBaseSpeed u with
            canSpawnNewPiece := true,
            fallingPieceCells := ([] : List (Nat × Nat)) } =
      countOcc u := by
    intro u
    unfold countOcc
    refine List.countP_congr ?_
    intro q _
    show ((transitionSpawningGrainsToBaseSpeed u).grid q.1 q.2).isSome = true ↔
      (u.grid q.1 q.2).isSome = true
    rw [transition_isSome]
  by_cases hst : (!(simulatePhysics s1).stuck.isEmpty) = true
  · rw [if_pos hst]
    dsimp only
    split
    · split
      · exact (hcnt3 _).trans hcnt2
      · exact hcnt2
    · exact hcnt2
  · rw [if_neg hst]
    dsimp only
    split
    · split
      · exact (hcnt3 _).trans hcnt2
      · exact hcnt2
    · exact hcnt2

/-- C5: a step of a state with no scheduled component (so no blinking
and no elimination this tick; spawning never happens inside `step`)
preserves the number of non-empty cells. -/
theorem claim_C5 (s : GameState)
    (hidle : ∀ c ∈ s.connectedComponents, c.eliminationCountdown < 0) :
    countOcc (stepState s) = countOcc s := by
  unfold stepState
  by_cases hgo : s.isGameOver = true
  · rw [step_gameOver s hgo]
  · unfold step
    rw [if_neg hgo]
    dsimp only
    rw [updateCC_idle s hidle]
    dsimp only
    by_cases hw : hasWallBoth (findConnectedComponents s.grid s.connectedComponents
        s.width s.height) = true
    · rw [if_pos hw]
      rfl
    · rw [if_neg hw]
      exact stepPhysicsPhase_countOcc _ _

/-- Witness for C5 at a concrete input. -/
theorem claim_C5_witness :
    (∀ c ∈ (editState 2 2 (setG emptyGrid 0 1
        (some (createGrain 1 false)))).connectedComponents,
      c.eliminationCountdown < 0) ∧
    countOcc (stepState (editState 2 2 (setG emptyGrid 0 1
        (some (createGrain 1 false))))) =
      countOcc (editState 2 2 (setG emptyGrid 0 1 (some (createGrain 1 false)))) :=
  ⟨fun c hc => absurd hc (List.not_mem_nil c),
   claim_C5 _ (fun c hc => absurd hc (List.not_mem_nil c))⟩

/-- C3 amended: every accepted `startTetrominoSpawn` call -- on any
state that allows spawning and is wide enough for the shape -- writes
the whole piece at once: it returns true, writes a spawning grain of
the drawn color to every spawn cell, leaves every other cell of the
grid unchanged, tags exactly the spawn cells as falling-piece cells,
forbids further spawns, and `getTetrominoSpawnProgress` is 1. -/
theorem claim_C3_amended (s : GameState) (ty : TetrominoType) (color startX : Nat)
    (hcan : s.canSpawnNewPiece = true)
    (hW : ((TETROMINO_SHAPES ty).headD []).length * TETROMINO_BLOCK_SIZE ≤ s.width) :
    (startTetrominoSpawn s ty color startX).2 = true ∧
    (startTetrominoSpawn s ty color startX).1.fallingPieceCells =
      spawnCells ty startX s.width s.height ∧
    (∀ p ∈ spawnCells ty startX s.width s.height,
      (startTetrominoSpawn s ty color startX).1.grid p.1 p.2 =
        some (createGrain color true)) ∧
    (∀ p : Nat × Nat, p ∉ spawnCells ty startX s.width s.height →
      (startTetrominoSpawn s ty color startX).1.grid p.1 p.2 = s.grid p.1 p.2) ∧
    (startTetrominoSpawn s ty color startX).1.canSpawnNewPiece = false ∧
    getTetrominoSpawnProgress (startTetrominoSpawn s ty color startX).1 = 1 := by
  have hr : startTetrominoSpawn s ty color startX =
      ({ s with
          grid := (spawnCells ty startX s.width s.height).foldl
            (fun g p => setG g p.1 p.2 (some (createGrain color true))) s.grid,
          fallingPieceCells := spawnCells ty startX s.width s.height,
          canSpawnNewPiece := false }, true) := by
    unfold startTetrominoSpawn
    rw [if_neg (by rw [hcan]; simp)]
    rw [if_neg (by push_cast; omega)]
  rw [hr]
  refine ⟨rfl, rfl, ?_, ?_, rfl, rfl⟩
  · intro p hp
    show ((spawnCells ty startX s.width s.height).foldl
      (fun g p => setG g p.1 p.2 (some (createGrain color true))) s.grid) p.1 p.2 =
      some (createGrain color true)
    exact foldl_setG_const_mem _ _ _ _ _ hp
  · intro p hp
    show ((spawnCells ty startX s.width s.height).foldl
      (fun g p => setG g p.1 p.2 (some (createGrain color true))) s.grid) p.1 p.2 =
      s.grid p.1 p.2
    exact foldl_setG_const_not_mem _ _ _ _ _ hp

/-- Base state for the C3 witness: a 20 by 6 grid already holding a
settled grain at (0, 0), so the spawn lands on non-empty terrain. -/
def c3base : GameState :=
  editState 20 6 (setG emptyGrid 0 0 (some (createGrain 2 false)))

/-- Witness for the amended C3: an accepted I spawn on the non-empty
base is instant and leaves the pre-existing grain untouched. -/
theorem claim_C3_amended_witness :
    c3base.canSpawnNewPiece = true ∧
    ((TETROMINO_SHAPES TetrominoType.I).headD []).length * TETROMINO_BLOCK_SIZE ≤
      c3base.width ∧
    (startTetrominoSpawn c3base .I 1 0).2 = true ∧
    getTetrominoSpawnProgress (startTetrominoSpawn c3base .I 1 0).1 = 1 ∧
    (startTetrominoSpawn c3base .I 1 0).1.grid 0 0 = some (createGrain 2 false) :=
  ⟨rfl, by decide, (claim_C3_amended c3base .I 1 0 rfl (by decide)).1,
   (claim_C3_amended c3base .I 1 0 rfl (by decide)).2.2.2.2.2,
   ((claim_C3_amended c3base .I 1 0 rfl (by decide)).2.2.2.1 (0, 0)
     (by decide)).trans (by decide)⟩

/-! ## Reachability and the empty-cell representation (C10) -/

/-- All grains in the grid have a nonzero color, and all tracked
components have a nonzero original color. -/
def GrainColorsOK (s : GameState) : Prop :=
  (∀ a b gr, s.grid a b = some gr → gr.color ≠ 0) ∧
  (∀ c ∈ s.connectedComponents, c.originalColor ≠ 0)

/-- The display color of a component with nonzero original color is
nonzero (white is 6). -/
theorem getComponentDisplayColor_ne_zero (c : ConnectedComponent)
    (h : c.originalColor ≠ 0) : getComponentDisplayColor c ≠ 0 := by
  unfold getComponentDisplayColor
  dsimp only
  split
  · split
    · dsimp only [WHITE_COLOR]; omega
    · exact h
  · exact h

/-- The elimination loop preserves nonzero grain colors. -/
theorem elimFold_colors (w h : Nat) :
    ∀ (L : List ConnectedComponent) (acc : ElimAcc),
      (∀ a b gr, acc.grid a b = some gr → gr.color ≠ 0) →
      (∀ c ∈ L, c.originalColor ≠ 0) →
      ∀ a b gr, (L.foldl (elimStep w h) acc).grid a b = some gr → gr.color ≠ 0 := by
  intro L
  induction L with
  | nil => intro acc hacc _ a b gr hg; exact hacc a b gr hg
  | cons c rest ih =>
    intro acc hacc hL a b gr hg
    rw [List.foldl_cons] at hg
    have hcor : c.originalColor ≠ 0 := hL c (List.mem_cons_self _ _)
    have hrest : ∀ d ∈ rest, d.originalColor ≠ 0 :=
      fun d hd => hL d (List.mem_cons_of_mem _ hd)
    refine ih _ ?_ hrest a b gr hg
    intro a2 b2 gr2 hg2
    unfold elimStep at hg2
    by_cases h1 : c.eliminationCountdown < 0
    · rw [if_pos h1] at hg2
      exact hacc a2 b2 gr2 hg2
    · rw [if_neg h1] at hg2
      have hwc : ∀ gr3, writeColor w h c.cells (getComponentDisplayColor c)
          acc.grid a2 b2 = some gr3 → gr3.color ≠ 0 := by
        intro gr3 hg3
        rcases writeColor_cases w h (getComponentDisplayColor c) c.cells acc.grid a2 b2
          with hc1 | ⟨gr4, -, hc1⟩
        · rw [hc1] at hg3
          exact hacc a2 b2 gr3 hg3
        · rw [hc1] at hg3
          rcases Option.some.inj hg3 with rfl
          exact getComponentDisplayColor_ne_zero c hcor
      by_cases h2 : c.eliminationCountdown - 1 < 0
      · rw [if_pos h2] at hg2
        dsimp only at hg2
        rcases clearCells_cases w h c.cells _ a2 b2 with hc1 | hc1
        · rw [hc1] at hg2
          exact hwc gr2 hg2
        · rw [hc1] at hg2
          cases hg2
      · rw [if_neg h2] at hg2
        exact hwc gr2 hg2

/-- The elimination loop preserves nonzero component original colors. -/
theorem elimFold_comps_orig (w h : Nat) :
    ∀ (L : List ConnectedComponent) (acc : ElimAcc),
      (∀ c ∈ acc.comps, c.originalColor ≠ 0) →
      (∀ c ∈ L, c.originalColor ≠ 0) →
      ∀ c ∈ (L.foldl (elimStep w h) acc).comps, c.originalColor ≠ 0 := by
  intro L
  induction L with
  | nil => intro acc hacc _ c hc; exact hacc c hc
  | cons c rest ih =>
    intro acc hacc hL d hd
    rw [List.foldl_cons] at hd
    have hcor : c.originalColor ≠ 0 := hL c (List.mem_cons_self _ _)
    have hrest : ∀ e ∈ rest, e.originalColor ≠ 0 :=
      fun e he => hL e (List.mem_cons_of_mem _ he)
    refine ih _ ?_ hrest d hd
    intro e he
    unfold elimStep at he
    by_cases h1 : c.eliminationCountdown < 0
    · rw [if_pos h1] at he
      rcases List.mem_append.mp he with he | he
      · exact hacc e he
      · rcases List.mem_singleton.mp he with rfl
        exact hcor
    · rw [if_neg h1] at he
      by_cases h2 : c.eliminationCountdown - 1 < 0
      · rw [if_pos h2] at he
        exact hacc e he
      · rw [if_neg h2] at he
        rcases List.mem_append.mp he with he | he
        · exact hacc e he
        · rcases List.mem_singleton.mp he with rfl
          exact hcor

/-- The physics pass preserves nonzero grain colors. -/
theorem simulatePhysics_colors (s1 : GameState)
    (hinv : ∀ a b gr, s1.grid a b = some gr → gr.color ≠ 0) :
    ∀ a b gr, (simulatePhysics s1).next a b = some gr → gr.color ≠ 0 := by
  have haux : ∀ (l : List (Nat × Nat)) (acc : PhysAcc),
      (∀ a b gr, acc.next a b = some gr → gr.color ≠ 0) →
      ∀ a b gr, (l.foldl (physCell s1) acc).next a b = some gr → gr.color ≠ 0 := by
    intro l
    induction l with
    | nil => intro acc hacc a b gr hg; exact hacc a b gr hg
    | cons p rest ih =>
      intro acc hacc a b gr hg
      rw [List.foldl_cons] at hg
      refine ih _ ?_ a b gr hg
      intro a2 b2 gr2 hg2
      cases hsg : s1.grid p.1 p.2 with
      | none =>
        rw [physCell_none s1 acc p hsg] at hg2
        exact hacc a2 b2 gr2 hg2
      | some gsrc =>
        rcases physCell_spec s1 acc p gsrc hsg with ⟨t, gr3, hnext, hcol, -⟩
        rw [hnext] at hg2
        by_cases hq : a2 = t.1 ∧ b2 = t.2
        · rw [hq.1, hq.2, setG_at] at hg2
          rcases Option.some.inj hg2 with rfl
          rw [hcol]
          exact hinv p.1 p.2 gsrc hsg
        · rw [setG_ne _ _ _ _ _ _ hq] at hg2
          exact hacc a2 b2 gr2 hg2
  intro a b gr
  exact haux (scanPos s1.width s1.height) _ (by intro a b gr hg; cases hg) a b gr

/-- Speed transition preserves grain colors. -/
theorem transition_colors (u : GameState)
    (hinv : ∀ a b gr, u.grid a b = some gr → gr.color ≠ 0) :
    ∀ a b gr, (transitionSpawningGrainsToBaseSpeed u).grid a b = some gr →
      gr.color ≠ 0 := by
  intro a b gr hg
  unfold transitionSpawningGrainsToBaseSpeed at hg
  dsimp only at hg
  by_cases hr : a < u.width ∧ b < u.height
  · rw [if_pos hr] at hg
    cases hu : u.grid a b with
    | none => rw [hu] at hg; cases hg
    | some g =>
      rw [hu] at hg
      dsimp only at hg
      by_cases hs : g.speed = SPAWNING_GRAIN_SPEED
      · rw [if_pos hs] at hg
        rcases Option.some.inj hg with rfl
        exact hinv a b g hu
      · rw [if_neg hs] at hg
        rcases Option.some.inj hg with rfl
        exact hinv a b g hu
  · rw [if_neg hr] at hg
    exact hinv a b gr hg

/-- The scheduling map preserves original colors. -/
theorem scheduleComps_orig (L : List ConnectedComponent)
    (h : ∀ c ∈ L, c.originalColor ≠ 0) :
    ∀ c ∈ scheduleComps L, c.originalColor ≠ 0 := by
  intro c hc
  unfold scheduleComps at hc
  rcases List.mem_map.mp hc with ⟨d, hd, rfl⟩
  have := h d hd
  split
  · exact this
  · exact this

/-- One `step` preserves the grain-color invariant. -/
theorem step_colorsOK (s : GameState) (hs : GrainColorsOK s) :
    GrainColorsOK (stepState s) := by
  unfold stepState step
  by_cases hgo : s.isGameOver = true
  · rw [if_pos hgo]
    exact hs
  · rw [if_neg hgo]
    dsimp only
    have hpe : GrainColorsOK (processEliminationCountdowns s).1 ∧
        (∀ a b gr, (processEliminationCountdowns s).1.grid a b = some gr →
          gr.color ≠ 0) := by
      unfold processEliminationCountdowns
      dsimp only
      constructor
      · constructor
        · intro a b gr hg
          exact elimFold_colors s.width s.height s.connectedComponents _
            hs.1 hs.2 a b gr hg
        · intro c hc
          exact elimFold_comps_orig s.width s.height s.connectedComponents _
            (by intro c hc; cases hc) hs.2 c hc
      · intro a b gr hg
        exact elimFold_colors s.width s.height s.connectedComponents _
          hs.1 hs.2 a b gr hg
    have hucc : GrainColorsOK (updateConnectedComponents s).1 := by
      unfold updateConnectedComponents
      dsimp only
      split
      · exact hpe.1
      · constructor
        · intro a b gr hg
          exact hpe.2 a b gr hg
        · intro c hc
          refine scheduleComps_orig _ ?_ c hc
          intro d hd
          exact (findCC_good _ _ _ _ d hd).2.2
    split
    · exact hucc
    · unfold stepPhysicsPhase
      dsimp only
      have hphys : ∀ a b gr,
          (simulatePhysics (updateConnectedComponents s).1).next a b = some gr →
          gr.color ≠ 0 :=
        simulatePhysics_colors _ hucc.1
    -- the physics-phase state keeps the component list of the
    -- post-elimination state and a grid built by the physics pass
      have hs2 : GrainColorsOK
          { (updateConnectedComponents s).1 with
              grid := (simulatePhysics (updateConnectedComponents s).1).next,
              fallingPieceCells := (simulatePhysics (updateConnectedComponents s).1).falling } :=
        ⟨hphys, hucc.2⟩
      have hs3 : ∀ u : GameState, GrainColorsOK u → GrainColorsOK
          { transitionSpawningGrainsToBaseSpeed u with
              canSpawnNewPiece := true,
              fallingPieceCells := ([] : List (Nat × Nat)) } := by
        intro u hu
        exact ⟨transition_colors u hu.1, hu.2⟩
      split
      · split
        · split
          · exact hs3 _ hs2
          · exact hs2
        · exact hs2
      · split
        · split
          · exact hs3 _ hs2
          · exact hs2
        · exact hs2

/-- Grid states reachable through the public cell-editing, spawning and
stepping operations. The spawn color is constrained to the palette the
source draws from. -/
inductive Reachable : GameState → Prop where
  | init (w h : Nat) : Reachable (initState w h)
  | set (s : GameState) (x y v : Int) : Reachable s → Reachable (setCell s x y v).1
  | fill (s : GameState) (x y rw rh v : Int) : Reachable s →
      Reachable (fillRect s x y rw rh v)
  | clr (s : GameState) : Reachable s → Reachable (clear s)
  | spawn (s : GameState) (ty : TetrominoType) (color startX : Nat) :
      Reachable s → color ∈ SAND_COLORS →
      Reachable (startTetrominoSpawn s ty color startX).1
  | tick (s : GameState) : Reachable s → Reachable (stepState s)

/-- A constant-value write loop only writes its constant. -/
theorem foldl_setG_const_cases (v : Option SandGrain) (l : List (Nat × Nat))
    (g : Grid) (a b : Nat) :
    (l.foldl (fun g p => setG g p.1 p.2 v) g) a b = g a b ∨
    (l.foldl (fun g p => setG g p.1 p.2 v) g) a b = v := by
  by_cases hm : (a, b) ∈ l
  · exact Or.inr (foldl_setG_const_mem v l g a b hm)
  · exact Or.inl (foldl_setG_const_not_mem v l g a b hm)

/-- Every reachable state satisfies the grain-color invariant. -/
theorem reachable_colorsOK (s : GameState) (hs : Reachable s) : GrainColorsOK s := by
  induction hs with
  | init w h =>
    exact ⟨(by intro a b gr hg; cases hg), (by intro c hc; cases hc)⟩
  | set s x y v _ ih =>
    unfold setCell
    split
    · rename_i hcond
      constructor
      · intro a b gr hg
        dsimp only at hg
        rcases show setG s.grid x.toNat y.toNat
            (if v = 0 then none else some (createGrain v.toNat false)) a b = some gr from hg
          with hg2
        unfold setG at hg2
        split at hg2
        · split at hg2
          · cases hg2
          · rcases Option.some.inj hg2 with rfl
            rename_i hv0
            have h0 : 0 ≤ v := hcond.2.1
            show v.toNat ≠ 0
            omega
        · exact ih.1 a b gr hg2
      · exact ih.2
    · exact ih
  | fill s x y rw rh v _ ih =>
    unfold fillRect
    split
    · exact ih
    · rename_i hval
      have hv : isValidCellValue v := not_not.mp hval
      constructor
      · intro a b gr hg
        dsimp only at hg
        rcases foldl_setG_const_cases _ _ s.grid a b with hc | hc
        · rw [hc] at hg
          exact ih.1 a b gr hg
        · rw [hc] at hg
          split at hg
          · cases hg
          · rcases Option.some.inj hg with rfl
            rename_i hv0
            have h0 : 0 ≤ v := hv.1
            show v.toNat ≠ 0
            omega
      · exact ih.2
  | clr s _ _ =>
    exact ⟨(by intro a b gr hg; cases hg), (by intro c hc; cases hc)⟩
  | spawn s ty color startX _ hcol ih =>
    unfold startTetrominoSpawn
    split
    · exact ih
    · dsimp only
      split
      · exact ih
      · constructor
        · intro a b gr hg
          dsimp only at hg
          rcases foldl_setG_const_cases _ _ s.grid a b with hc | hc
          · rw [hc] at hg
            exact ih.1 a b gr hg
          · rw [hc] at hg
            rcases Option.some.inj hg with rfl
            have hne : color ≠ 0 := by
              unfold SAND_COLORS at hcol
              simp only [List.mem_cons, List.not_mem_nil, or_false] at hcol
              rcases hcol with rfl | rfl | rfl | rfl | rfl <;> decide
            exact hne
        · exact ih.2
  | tick s _ ih => exact step_colorsOK s ih

/-- C10: on every state reachable through the public operations,
`countCells 0` is 0: empty cells are represented by the absence of a
grain, never by a grain of color 0. -/
theorem claim_C10 (s : GameState) (hs : Reachable s) : countCells s 0 = 0 := by
  have hinv := reachable_colorsOK s hs
  unfold countCells
  rw [List.countP_eq_zero]
  intro p _
  cases hg : s.grid p.1 p.2 with
  | none => simp [hg]
  | some gr =>
    have := hinv.1 p.1 p.2 gr hg
    simp [hg, this]

/-- Witness for C10 at a concrete reachable state. -/
theorem claim_C10_witness :
    countCells (setCell (initState 2 2) 0 0 3).1 0 = 0 :=
  claim_C10 _ (Reachable.set _ 0 0 3 (Reachable.init 2 2))

/-! ## Single-cell fall (C6) -/

/-- A neighbor offset never maps a position to itself. -/
theorem nbrPos_ne (w h : Nat) (p : Nat × Nat) (d : Int × Int)
    (hd : d ∈ DIRECTIONS) (q : Nat × Nat) (hq : nbrPos w h p d = some q) :
    q ≠ p := by
  have hd0 : d ≠ ((0 : Int), (0 : Int)) := by
    fin_cases hd <;> decide
  unfold nbrPos at hq
  dsimp only at hq
  split at hq
  · rename_i hcond
    rcases Option.some.inj hq with rfl
    intro hqp
    have h1 : ((p.1 : Int) + d.1).toNat = p.1 := congrArg Prod.fst hqp
    have h2 : ((p.2 : Int) + d.2).toNat = p.2 := congrArg Prod.snd hqp
    have hd1 : d.1 = 0 := by omega
    have hd2 : d.2 = 0 := by omega
    exact hd0 (by
      have : d = (d.1, d.2) := rfl
      rw [this, hd1, hd2])
  · cases hq

/-- On a grid whose only occupied cell is the seed, the closure is the
seed alone. -/
theorem growComponent_singleton (g : Grid) (comps : List ConnectedComponent)
    (w h : Nat) (p0 : Nat × Nat)
    (hsolo : ∀ q : Nat × Nat, q ≠ p0 → g q.1 q.2 = none) (fuel : Nat) :
    growComponent g comps w h (fuel + 1) [p0] [p0] = [p0] := by
  have hnbr : sameColorNeighbors g comps w h p0 = [] := by
    rw [List.eq_nil_iff_forall_not_mem]
    intro q hq
    have hgood := sameColorNeighbors_good g comps w h p0 q hq
    unfold sameColorNeighbors at hq
    rcases List.mem_filter.mp hq with ⟨hmem, -⟩
    rcases List.mem_filterMap.mp hmem with ⟨d, hd, hnb⟩
    have hne := nbrPos_ne w h p0 d hd q hnb
    have := hsolo q hne
    rw [this] at hgood
    cases hgood.2.2
  rw [growComponent]
  simp only [List.foldl_cons, List.foldl_nil]
  rw [hnbr]
  simp

/-- Decomposing the scan order at a member position. -/
theorem scanPos_split (w h : Nat) (p0 : Nat × Nat) (hp : p0 ∈ scanPos w h) :
    ∃ l1 l2, scanPos w h = l1 ++ p0 :: l2 ∧ p0 ∉ l1 ∧ p0 ∉ l2 := by
  rcases List.append_of_mem hp with ⟨l1, l2, hsplit⟩
  have hnd := scanPos_nodup w h
  rw [hsplit] at hnd
  rcases List.nodup_append.mp hnd with ⟨-, h2, h3⟩
  refine ⟨l1, l2, hsplit, ?_, ?_⟩
  · intro hc
    exact h3 hc (List.mem_cons_self _ _)
  · exact (List.nodup_cons.mp h2).1

/-- A singleton-occupancy grid rebuild finds no component: the lone
cell has no same-colored occupied neighbor, so it never unions and the
DSU parent map stays empty. -/
theorem findCC_singleton (w h x0 y0 : Nat) (gr : SandGrain) :
    findConnectedComponents (setG emptyGrid x0 y0 (some gr)) [] w h = [] := by
  have hsolo : ∀ q : Nat × Nat, q ≠ (x0, y0) →
      setG emptyGrid x0 y0 (some gr) q.1 q.2 = none := by
    intro q hq
    rw [setG_ne _ _ _ _ _ _ (by
      rintro ⟨h1, h2⟩
      exact hq (by
        have : q = (q.1, q.2) := rfl
        rw [this, h1, h2]))]
    rfl
  have hnbr : sameColorNeighbors (setG emptyGrid x0 y0 (some gr)) [] w h (x0, y0) = [] := by
    rw [List.eq_nil_iff_forall_not_mem]
    intro q hq
    have hgood := sameColorNeighbors_good (setG emptyGrid x0 y0 (some gr)) [] w h (x0, y0) q hq
    unfold sameColorNeighbors at hq
    rcases List.mem_filter.mp hq with ⟨hmem, -⟩
    rcases List.mem_filterMap.mp hmem with ⟨d, hd, hnb⟩
    have hne := nbrPos_ne w h (x0, y0) d hd q hnb
    have hqn := hsolo q hne
    rw [hqn] at hgood
    cases hgood.2.2
  have hstep : ∀ (st : List (Nat × Nat) × List ConnectedComponent × Nat) (p : Nat × Nat),
      findCCStep (setG emptyGrid x0 y0 (some gr)) [] w h st p = st := by
    intro st p
    by_cases hp : p = (x0, y0)
    · unfold findCCStep
      by_cases hcond : ((setG emptyGrid x0 y0 (some gr) p.1 p.2).isSome &&
          !(st.1.any fun r => decide (r = p))) = true
      · rw [if_pos hcond, if_pos (by rw [hp, hnbr]; rfl)]
      · rw [if_neg hcond]
    · unfold findCCStep
      rw [if_neg (by rw [hsolo p hp]; simp)]
  have hfold : ∀ (l : List (Nat × Nat)) (st : List (Nat × Nat) × List ConnectedComponent × Nat),
      l.foldl (findCCStep (setG emptyGrid x0 y0 (some gr)) [] w h) st = st := by
    intro l
    induction l with
    | nil => intro st; rfl
    | cons p rest ih =>
      intro st
      rw [List.foldl_cons, hstep st p]
      exact ih st
  unfold findConnectedComponents
  rw [hfold]

/-- The physics pass on positions that are all empty does nothing. -/
theorem physFold_skip (u : GameState) :
    ∀ (l : List (Nat × Nat)) (acc : PhysAcc),
      (∀ p ∈ l, u.grid p.1 p.2 = none) →
      l.foldl (physCell u) acc = acc := by
  intro l
  induction l with
  | nil => intro acc _; rfl
  | cons p rest ih =>
    intro acc hl
    rw [List.foldl_cons, physCell_none u acc p (hl p (List.mem_cons_self _ _))]
    exact ih acc (fun q hq => hl q (List.mem_cons_of_mem _ hq))

/-- The physics pass on a grid holding a single fresh base-speed grain
moves it one cell straight down. -/
theorem simulatePhysics_singleton (u : GameState) (x0 y0 col : Nat)
    (hg : u.grid = setG emptyGrid x0 y0 (some (createGrain col false)))
    (hfall : u.fallingPieceCells = [])
    (hx : x0 < u.width) (hy0 : 0 < y0) (hy : y0 < u.height) :
    simulatePhysics u =
      { next := setG emptyGrid x0 (y0 - 1) (some (createGrain col false)),
        falling := [], stuck := [], moved := true } := by
  have hsolo : ∀ q : Nat × Nat, q ≠ (x0, y0) → u.grid q.1 q.2 = none := by
    intro q hq
    rw [hg]
    rw [setG_ne _ _ _ _ _ _ (by
      rintro ⟨h1, h2⟩
      exact hq (by
        have : q = (q.1, q.2) := rfl
        rw [this, h1, h2]))]
    rfl
  have hp0 : (x0, y0) ∈ scanPos u.width u.height := mem_scanPos.mpr ⟨hx, hy⟩
  rcases scanPos_split u.width u.height (x0, y0) hp0 with ⟨l1, l2, hsplit, hn1, hn2⟩
  unfold simulatePhysics
  rw [hsplit, List.foldl_append, List.foldl_cons]
  rw [physFold_skip u l1 _ (fun q hq => hsolo q (fun hc => hn1 (hc ▸ hq)))]
  have hcell : physCell u { next := emptyGrid, falling := [], stuck := [], moved := false }
      (x0, y0) =
      { next := setG emptyGrid x0 (y0 - 1) (some (createGrain col false)),
        falling := [], stuck := [], moved := true } := by
    unfold physCell
    rw [show u.grid (x0, y0).1 (x0, y0).2 = some (createGrain col false) by
      rw [hg]; exact setG_at _ _ _ _]
    dsimp only
    rw [hfall]
    have hfb : (([] : List (Nat × Nat)).any fun r => decide (r = (x0, y0))) = false := rfl
    rw [hfb]
    have htrans : shouldTransitionSpeed u (x0, y0) (createGrain col false) false = false := by
      unfold shouldTransitionSpeed
      simp
    rw [htrans]
    have hticks : (createGrain col false).ticks - 1 ≤ 0 := by
      unfold createGrain BASE_GRAIN_SPEED
      norm_num
    rw [if_pos hticks]
    have hfind : List.find? (fun q =>
        decide (0 ≤ q.2) && decide (0 ≤ q.1) && decide (q.1 < (u.width : Int)) &&
        ((emptyGrid : Grid) q.1.toNat q.2.toNat).isNone)
        [((x0 : Int), (y0 : Int) - 1), ((x0 : Int) - 1, (y0 : Int) - 1),
         ((x0 : Int) + 1, (y0 : Int) - 1)] =
        some ((x0 : Int), (y0 : Int) - 1) := by
      rw [List.find?_cons_of_pos]
      have h1 : (0 : Int) ≤ (y0 : Int) - 1 := by omega
      have h2 : (0 : Int) ≤ (x0 : Int) := by omega
      have h3 : (x0 : Int) < (u.width : Int) := by omega
      simp [h1, h2, h3, emptyGrid, Option.isNone]
    rw [hfind]
    dsimp only
    have ht1 : ((x0 : Int)).toNat = x0 := by omega
    have ht2 : (((y0 : Int)) - 1).toNat = y0 - 1 := by omega
    rw [ht1, ht2]
    rfl
  rw [hcell]
  exact physFold_skip u l2 _ (fun q hq => hsolo q (fun hc => hn2 (hc ▸ hq)))

/-- One step on a state whose grid holds a single settled grain not on
the floor: the rebuild finds no component (nothing is scheduled), the
physics pass moves the grain straight down. -/
theorem step_singleton (u : GameState) (w h x0 y0 col : Nat)
    (hW : u.width = w) (hH : u.height = h)
    (hG : u.grid = setG emptyGrid x0 y0 (some (createGrain col false)))
    (hC : u.connectedComponents = [])
    (hGO : u.isGameOver = false)
    (hF : u.fallingPieceCells = [])
    (hCS : u.canSpawnNewPiece = true)
    (hx : x0 < w) (hy0 : 0 < y0) (hy : y0 < h) :
    (stepState u).width = w ∧ (stepState u).height = h ∧
    (stepState u).grid = setG emptyGrid x0 (y0 - 1) (some (createGrain col false)) := by
  have hidle : ∀ c ∈ u.connectedComponents, c.eliminationCountdown < 0 := by
    rw [hC]
    exact fun c hc => absurd hc (List.not_mem_nil c)
  have hub := updateCC_idle u hidle
  have hNu : findConnectedComponents u.grid u.connectedComponents u.width u.height = [] := by
    rw [hG, hC, hW, hH]
    exact findCC_singleton w h x0 y0 _
  rw [hNu] at hub
  unfold stepState step
  rw [if_neg (by rw [hGO]; simp)]
  dsimp only
  rw [hub]
  dsimp only
  rw [if_neg (by decide)]
  unfold stepPhysicsPhase
  have hphys := simulatePhysics_singleton
    { u with
        connectedComponents := scheduleComps [],
        hasActiveEliminations := hasWallBoth [] }
    x0 y0 col (by show u.grid = _; exact hG) (by show u.fallingPieceCells = []; exact hF)
    (by show x0 < u.width; omega) hy0 (by show y0 < u.height; omega)
  rw [hphys]
  dsimp only
  rw [if_neg (by simp)]
  rw [if_neg (by simp)]
  exact ⟨hW, hH, rfl⟩

/-- C6: on every grid holding exactly one colored cell at (x0, y0) with
y0 > 0 (and the cell below thus empty), one step moves that cell to
(x0, y0 - 1) and afterwards every other cell reads empty. The isolated
cell joins no component during the rebuild, so nothing is scheduled and
this holds at every width, including width 1. -/
theorem claim_C6 (w h x0 y0 col : Nat)
    (hx : x0 < w) (hy0 : 0 < y0) (hy : y0 < h)
    (hcol1 : 1 ≤ col) (hcol6 : col ≤ 6) :
    getCell (stepState (editState w h
        (setG emptyGrid x0 y0 (some (createGrain col false)))))
      (x0 : Int) ((y0 : Int) - 1) = col ∧
    (∀ x y : Int, ¬(x = (x0 : Int) ∧ y = (y0 : Int) - 1) →
      getCell (stepState (editState w h
          (setG emptyGrid x0 y0 (some (createGrain col false))))) x y = 0) := by
  rcases step_singleton (editState w h
      (setG emptyGrid x0 y0 (some (createGrain col false)))) w h x0 y0 col
      rfl rfl rfl rfl rfl rfl rfl hx hy0 hy with ⟨hsw, hsh, hsg⟩
  constructor
  · unfold getCell
    rw [hsw, hsh, hsg]
    rw [if_pos (by
      unfold isValidPosition
      refine ⟨by omega, by omega, by omega, by omega⟩)]
    have ht1 : ((x0 : Int)).toNat = x0 := by omega
    have ht2 : (((y0 : Int)) - 1).toNat = y0 - 1 := by omega
    rw [ht1, ht2, setG_at]
    rfl
  · intro x y hne
    unfold getCell
    rw [hsw, hsh, hsg]
    by_cases hv : isValidPosition w h x y
    · rw [if_pos hv]
      have hvx := hv.1
      have hvy := hv.2.2.1
      have hne2 : ¬(x.toNat = x0 ∧ y.toNat = y0 - 1) := by
        rintro ⟨h1, h2⟩
        exact hne ⟨by omega, by omega⟩
      rw [setG_ne _ _ _ _ _ _ hne2]
      rfl
    · rw [if_neg hv]

/-- Witness for C6 on a width-1 grid: the lone grain at (0, 1) touches
both walls yet joins no component, so it simply falls to (0, 0). -/
theorem claim_C6_witness :
    (0 < 1 ∧ 0 < 2 ∧ 1 < 2 ∧ 1 ≤ 1 ∧ 1 ≤ 6) ∧
    getCell (stepState (editState 1 2 (setG emptyGrid 0 1
      (some (createGrain 1 false))))) 0 0 = 1 ∧
    getCell (stepState (editState 1 2 (setG emptyGrid 0 1
      (some (createGrain 1 false))))) 0 1 = 0 :=
  ⟨by decide,
   (claim_C6 1 2 0 1 1 (by decide) (by decide) (by decide) (by decide) (by decide)).1,
   (claim_C6 1 2 0 1 1 (by decide) (by decide) (by decide) (by decide)
     (by decide)).2 0 1 (by decide)⟩

/-! ## Full-grid game over (C2) -/

theorem not_mem_of_idx_lt {w : Nat} {p t : Nat × Nat} {rest : List (Nat × Nat)}
    (hrel : ∀ q ∈ rest, scanIdx w p < scanIdx w q)
    (hlt : scanIdx w t < scanIdx w p) : t ∉ p :: rest := by
  intro hc
  rcases List.mem_cons.mp hc with rfl | hc
  · omega
  · have := hrel t hc
    omega

/-- A fresh base-speed grain whose three fall candidates are all
blocked in the next grid stays in place (and is recorded as stuck on
the top row). -/
theorem physCell_stays (u : GameState) (acc : PhysAcc) (x y : Nat) (c : Nat)
    (hg : u.grid x y = some (createGrain c false))
    (hdown : y = 0 ∨ (acc.next x (y - 1)).isSome = true)
    (hdl : x = 0 ∨ y = 0 ∨ (acc.next (x - 1) (y - 1)).isSome = true)
    (hdr : ¬(x + 1 < u.width) ∨ y = 0 ∨ (acc.next (x + 1) (y - 1)).isSome = true) :
    physCell u acc (x, y) =
      { next := setG acc.next x y (some (createGrain c false)),
        falling := if (u.fallingPieceCells.any fun r => decide (r = (x, y)))
          then acc.falling ++ [(x, y)] else acc.falling,
        stuck := if y = u.height - 1 then acc.stuck ++ [(x, y)] else acc.stuck,
        moved := acc.moved } := by
  unfold physCell
  rw [show u.grid (x, y).1 (x, y).2 = some (createGrain c false) from hg]
  dsimp only
  have htrans : shouldTransitionSpeed u (x, y) (createGrain c false)
      (u.fallingPieceCells.any fun r => decide (r = (x, y))) = false := by
    unfold shouldTransitionSpeed
    simp [createGrain, BASE_GRAIN_SPEED, SPAWNING_GRAIN_SPEED]
  rw [htrans]
  have hticks : (createGrain c false).ticks - 1 ≤ 0 := by
    unfold createGrain BASE_GRAIN_SPEED
    norm_num
  rw [if_pos hticks]
  have hfind : List.find? (fun q =>
      decide (0 ≤ q.2) && decide (0 ≤ q.1) && decide (q.1 < (u.width : Int)) &&
      (acc.next q.1.toNat q.2.toNat).isNone)
      [(((x, y).1 : Int), ((x, y).2 : Int) - 1),
       (((x, y).1 : Int) - 1, ((x, y).2 : Int) - 1),
       (((x, y).1 : Int) + 1, ((x, y).2 : Int) - 1)] = none := by
    rw [List.find?_eq_none]
    intro q hq
    simp only [List.mem_cons, List.not_mem_nil, or_false] at hq
    rcases hq with rfl | rfl | rfl
    · dsimp only
      rcases hdown with rfl | hocc
      · simp
      · intro hcon
        rcases Bool.and_eq_true _ _ |>.mp hcon with ⟨hc1, hnone⟩
        rcases Bool.and_eq_true _ _ |>.mp hc1 with ⟨hc2, -⟩
        rcases Bool.and_eq_true _ _ |>.mp hc2 with ⟨hy1, -⟩
        have hy1' : (0 : Int) ≤ (y : Int) - 1 := of_decide_eq_true hy1
        have ht : (((y : Int)) - 1).toNat = y - 1 := by omega
        have ht2 : (((x, y).1 : Int)).toNat = x := by dsimp only; omega
        rw [ht, ht2] at hnone
        rw [Option.isNone_iff_eq_none] at hnone
        rw [hnone] at hocc
        cases hocc
    · dsimp only
      rcases hdl with rfl | hrest
      · intro hcon
        rcases Bool.and_eq_true _ _ |>.mp hcon with ⟨hc1, -⟩
        rcases Bool.and_eq_true _ _ |>.mp hc1 with ⟨hc2, -⟩
        rcases Bool.and_eq_true _ _ |>.mp hc2 with ⟨-, hx1⟩
        have : (0 : Int) ≤ (0 : Int) - 1 := by
          have := of_decide_eq_true hx1
          simpa using this
        omega
      · rcases hrest with rfl | hocc
        · simp
        · intro hcon
          rcases Bool.and_eq_true _ _ |>.mp hcon with ⟨hc1, hnone⟩
          rcases Bool.and_eq_true _ _ |>.mp hc1 with ⟨hc2, -⟩
          rcases Bool.and_eq_true _ _ |>.mp hc2 with ⟨hy1, hx1⟩
          have hy1' : (0 : Int) ≤ (y : Int) - 1 := of_decide_eq_true hy1
          have hx1' : (0 : Int) ≤ (x : Int) - 1 := of_decide_eq_true hx1
          have ht : (((y : Int)) - 1).toNat = y - 1 := by omega
          have ht2 : (((x : Int)) - 1).toNat = x - 1 := by omega
          rw [ht, ht2] at hnone
          rw [Option.isNone_iff_eq_none] at hnone
          rw [hnone] at hocc
          cases hocc
    · dsimp only
      rcases hdr with hnr | hrest
      · intro hcon
        rcases Bool.and_eq_true _ _ |>.mp hcon with ⟨hc1, -⟩
        rcases Bool.and_eq_true _ _ |>.mp hc1 with ⟨-, hxw⟩
        have := of_decide_eq_true hxw
        omega
      · rcases hrest with rfl | hocc
        · simp
        · intro hcon
          rcases Bool.and_eq_true _ _ |>.mp hcon with ⟨hc1, hnone⟩
          rcases Bool.and_eq_true _ _ |>.mp hc1 with ⟨hc2, -⟩
          rcases Bool.and_eq_true _ _ |>.mp hc2 with ⟨hy1, -⟩
          have hy1' : (0 : Int) ≤ (y : Int) - 1 := of_decide_eq_true hy1
          have ht : (((y : Int)) - 1).toNat = y - 1 := by omega
          have ht2 : (((x : Int)) + 1).toNat = x + 1 := by omega
          rw [ht, ht2] at hnone
          rw [Option.isNone_iff_eq_none] at hnone
          rw [hnone] at hocc
          cases hocc
  rw [hfind]
  rfl

/-- On a grid entirely filled with fresh base-speed grains, the physics
pass leaves the bottom-left top-row cell stuck. -/
theorem simulatePhysics_full (u : GameState)
    (hfull : ∀ x y : Nat, x < u.width → y < u.height →
      ∃ c, u.grid x y = some (createGrain c false))
    (hw : 0 < u.width) (hh : 0 < u.height) :
    (0, u.height - 1) ∈ (simulatePhysics u).stuck := by
  set Inv : PhysAcc → List (Nat × Nat) → Prop := fun acc rest =>
    (∀ p : Nat × Nat, p.1 < u.width → p.2 < u.height → p ∉ rest →
      acc.next p.1 p.2 = u.grid p.1 p.2) ∧
    (∀ q ∈ rest, acc.next q.1 q.2 = none) ∧
    (∀ p : Nat × Nat, p.1 < u.width → p.2 = u.height - 1 → p ∉ rest →
      p ∈ acc.stuck) with hInv
  have hfin : Inv ((scanPos u.width u.height).foldl (physCell u)
      { next := emptyGrid, falling := [], stuck := [], moved := false }) [] := by
    refine foldl_inv (physCell u) Inv (scanPos u.width u.height) ?_
      (scanPos u.width u.height) _ (List.suffix_refl _) ?_
    · intro acc p rest hsuf hacc
      obtain ⟨x, y⟩ := p
      have hrel : ∀ q ∈ rest, scanIdx u.width (x, y) < scanIdx u.width q :=
        suffix_rel_of_pairwise (scanPos_pairwise u.width u.height) hsuf
      have hpmem : (x, y) ∈ scanPos u.width u.height := mem_of_suffix hsuf
      have hprange := mem_scanPos.mp hpmem
      rcases hfull x y hprange.1 hprange.2 with ⟨c, hgc⟩
      have hproc : ∀ (t : Nat × Nat), t.1 < u.width → t.2 < u.height →
          scanIdx u.width t < scanIdx u.width (x, y) →
          (acc.next t.1 t.2).isSome = true := by
        intro t ht1 ht2 htidx
        rw [hacc.1 t ht1 ht2 (not_mem_of_idx_lt hrel htidx)]
        rcases hfull t.1 t.2 ht1 ht2 with ⟨c2, hgc2⟩
        rw [hgc2]
        rfl
      have hstay := physCell_stays u acc x y c hgc
        (by
          rcases Nat.eq_zero_or_pos y with rfl | hy1
          · exact Or.inl rfl
          · refine Or.inr (hproc (x, y - 1) hprange.1 (by omega) ?_)
            exact scanIdx_lt_below u.width (x, y - 1) (x, y) hprange.1 (by omega))
        (by
          rcases Nat.eq_zero_or_pos x with rfl | hx1
          · exact Or.inl rfl
          rcases Nat.eq_zero_or_pos y with rfl | hy1
          · exact Or.inr (Or.inl rfl)
          refine Or.inr (Or.inr (hproc (x - 1, y - 1) (by omega) (by omega) ?_))
          exact scanIdx_lt_below u.width (x - 1, y - 1) (x, y) (by omega) (by omega))
        (by
          by_cases hxr : x + 1 < u.width
          · rcases Nat.eq_zero_or_pos y with rfl | hy1
            · exact Or.inr (Or.inl rfl)
            refine Or.inr (Or.inr (hproc (x + 1, y - 1) (by omega) (by omega) ?_))
            exact scanIdx_lt_below u.width (x + 1, y - 1) (x, y) (by omega) (by omega)
          · exact Or.inl hxr)
      rw [hstay]
      refine ⟨?_, ?_, ?_⟩
      · intro p2 hp1 hp2 hpn
        dsimp only
        by_cases hpq : p2 = (x, y)
        · rw [hpq]
          rw [show setG acc.next x y (some (createGrain c false)) (x, y).1 (x, y).2 =
            some (createGrain c false) from setG_at _ _ _ _]
          exact hgc.symm
        · rw [setG_ne _ _ _ _ _ _ (by
            rintro ⟨h1, h2⟩
            exact hpq (by
              have : p2 = (p2.1, p2.2) := rfl
              rw [this, h1, h2]))]
          exact hacc.1 p2 hp1 hp2 (by
            intro hc
            rcases List.mem_cons.mp hc with hc | hc
            · exact hpq hc
            · exact hpn hc)
      · intro q hq
        dsimp only
        rw [setG_ne _ _ _ _ _ _ (by
          rintro ⟨h1, h2⟩
          have := hrel q hq
          have hqe : q = (x, y) := by
            have : q = (q.1, q.2) := rfl
            rw [this, h1, h2]
          rw [hqe] at this
          omega)]
        exact hacc.2.1 q (List.mem_cons_of_mem _ hq)
      · intro p2 hp1 hp2 hpn
        dsimp only
        by_cases hpq : p2 = (x, y)
        · rw [if_pos (by rw [hpq] at hp2; exact hp2)]
          rw [hpq]
          exact List.mem_append_right _ (List.mem_singleton.mpr rfl)
        · have hold : p2 ∈ acc.stuck := hacc.2.2 p2 hp1 hp2 (by
            intro hc
            rcases List.mem_cons.mp hc with hc | hc
            · exact hpq hc
            · exact hpn hc)
          split
          · exact List.mem_append_left _ hold
          · exact hold
    · refine ⟨?_, ?_, ?_⟩
      · intro p hp1 hp2 hpn
        exact absurd (mem_scanPos.mpr ⟨hp1, hp2⟩) hpn
      · intro q _; rfl
      · intro p hp1 hp2 hpn
        exact absurd (mem_scanPos.mpr ⟨hp1, by omega⟩) hpn
  exact hfin.2.2 (0, u.height - 1) hw (by rfl) (List.not_mem_nil _)

/-- C2 amended: if the whole grid (not just the top row) is filled with
fresh sand and no rebuilt component spans both walls, one `step()` sets
the game-over latch; while the latch is set every `step()` is a no-op
returning false; `resetGameOver()` clears the latch. (The amendment is
forced because a filled top row with space below simply falls, and a
single-color wall-to-wall row is scheduled for elimination instead.) -/
theorem claim_C2_amended :
    (∀ (w h : Nat) (g : Grid), 0 < w → 0 < h →
      (∀ x y : Nat, x < w → y < h →
        ∃ c, 1 ≤ c ∧ c ≤ 6 ∧ g x y = some (createGrain c false)) →
      hasWallBoth (findConnectedComponents g [] w h) = false →
      getIsGameOver (stepState (editState w h g)) = true) ∧
    (∀ u : GameState, u.isGameOver = true → step u = (u, false)) ∧
    (∀ u : GameState, (resetGameOver u).isGameOver = false) := by
  refine ⟨?_, step_gameOver, fun u => rfl⟩
  intro w h g hw hh hfull hnw
  have hidle : ∀ c ∈ (editState w h g).connectedComponents,
      c.eliminationCountdown < 0 :=
    fun c hc => absurd hc (List.not_mem_nil c)
  have hub := updateCC_idle (editState w h g) hidle
  have hnw2 : hasWallBoth (findConnectedComponents (editState w h g).grid
      (editState w h g).connectedComponents (editState w h g).width
      (editState w h g).height) = false := hnw
  rw [hnw2] at hub
  unfold stepState step
  rw [if_neg (by simp [editState, initState])]
  dsimp only
  rw [hub]
  dsimp only
  rw [if_neg (by simp)]
  unfold stepPhysicsPhase
  have hstuck := simulatePhysics_full
    { editState w h g with
        connectedComponents := scheduleComps (findConnectedComponents
          (editState w h g).grid (editState w h g).connectedComponents
          (editState w h g).width (editState w h g).height),
        hasActiveEliminations := false }
    (by
      intro x y hx hy
      rcases hfull x y hx hy with ⟨c, -, -, hc⟩
      exact ⟨c, hc⟩)
    hw hh
  have hiemp : (simulatePhysics
      { editState w h g with
          connectedComponents := scheduleComps (findConnectedComponents
            (editState w h g).grid (editState w h g).connectedComponents
            (editState w h g).width (editState w h g).height),
          hasActiveEliminations := false }).stuck.isEmpty = false := by
    cases hl : (simulatePhysics
        { editState w h g with
            connectedComponents := scheduleComps (findConnectedComponents
              (editState w h g).grid (editState w h g).connectedComponents
              (editState w h g).width (editState w h g).height),
            hasActiveEliminations := false }).stuck with
    | nil => rw [hl] at hstuck; cases hstuck
    | cons a tl => rfl
  rw [if_pos (by rw [hiemp]; rfl)]
  rfl

/-- The full 2 by 2 grid used as the C2 amended witness: column 0 holds
color 1, column 1 holds color 2, so no component spans both walls. -/
def c2full : Grid :=
  setG (setG (setG (setG emptyGrid 0 0 (some (createGrain 1 false)))
    1 0 (some (createGrain 2 false))) 0 1 (some (createGrain 1 false)))
    1 1 (some (createGrain 2 false))

/-- Witness for the amended C2 at two concrete inputs: the full 2 by 2
grid with single-color columns, and a full 1 by 1 grid whose lone grain
joins no component (so nothing is scheduled and game over latches). -/
theorem claim_C2_amended_witness :
    hasWallBoth (findConnectedComponents c2full [] 2 2) = false ∧
    getIsGameOver (stepState (editState 2 2 c2full)) = true ∧
    step (stepState (editState 2 2 c2full)) = (stepState (editState 2 2 c2full), false) ∧
    hasWallBoth (findConnectedComponents
      (setG emptyGrid 0 0 (some (createGrain 1 false))) [] 1 1) = false ∧
    getIsGameOver (stepState (editState 1 1
      (setG emptyGrid 0 0 (some (createGrain 1 false))))) = true := by
  have hfull : ∀ x y : Nat, x < 2 → y < 2 →
      ∃ c, 1 ≤ c ∧ c ≤ 6 ∧ c2full x y = some (createGrain c false) := by
    intro x y hx hy
    interval_cases x <;> interval_cases y
    · exact ⟨1, by decide, by decide, by decide⟩
    · exact ⟨1, by decide, by decide, by decide⟩
    · exact ⟨2, by decide, by decide, by decide⟩
    · exact ⟨2, by decide, by decide, by decide⟩
  have h1 := claim_C2_amended.1 2 2 c2full (by decide) (by decide) hfull (by decide)
  have hfull1 : ∀ x y : Nat, x < 1 → y < 1 →
      ∃ c, 1 ≤ c ∧ c ≤ 6 ∧ setG emptyGrid 0 0 (some (createGrain 1 false)) x y =
        some (createGrain c false) := by
    intro x y hx hy
    interval_cases x <;> interval_cases y
    exact ⟨1, by decide, by decide, by decide⟩
  have h2 := claim_C2_amended.1 1 1 (setG emptyGrid 0 0 (some (createGrain 1 false)))
    (by decide) (by decide) hfull1 (by decide)
  exact ⟨by decide, h1, claim_C2_amended.2.1 _ h1, by decide, h2⟩

/-! ## Soft drop (C8) -/

/-- Every collected piece reads its color off the grid at its own
position. -/
theorem piecesToMove_spec (t : GameState) :
    ∀ q ∈ piecesToMove t, ∃ g, t.grid q.1 q.2.1 = some g ∧ q.2.2 = g.color := by
  unfold piecesToMove
  have haux : ∀ (l : List (Nat × Nat)) (acc : List (Nat × Nat × Nat)),
      (∀ q ∈ acc, ∃ g, t.grid q.1 q.2.1 = some g ∧ q.2.2 = g.color) →
      ∀ q ∈ l.foldl (fun l p =>
        match t.grid p.1 p.2 with
        | some g => l ++ [(p.1, p.2, g.color)]
        | none => l) acc,
        ∃ g, t.grid q.1 q.2.1 = some g ∧ q.2.2 = g.color := by
    intro l
    induction l with
    | nil => intro acc hacc q hq; exact hacc q hq
    | cons p rest ih =>
      intro acc hacc q hq
      rw [List.foldl_cons] at hq
      refine ih _ ?_ q hq
      intro q2 hq2
      cases hp : t.grid p.1 p.2 with
      | none =>
        rw [hp] at hq2
        exact hacc q2 hq2
      | some g =>
        rw [hp] at hq2
        rcases List.mem_append.mp hq2 with hq2 | hq2
        · exact hacc q2 hq2
        · rcases List.mem_singleton.mp hq2 with rfl
          exact ⟨g, hp, rfl⟩
  intro q hq
  exact haux t.fallingPieceCells [] (by intro q hq; cases hq) q hq

/-- The atomic down-move write loop leaves non-target slots alone. -/
theorem foldl_write_not_target :
    ∀ (l : List (Nat × Nat × Nat)) (g : Grid) (a b : Nat),
      (∀ q ∈ l, ¬(q.1 = a ∧ q.2.1 - 1 = b)) →
      (l.foldl (fun g q => setG g q.1 (q.2.1 - 1) (some (createGrain q.2.2 false))) g) a b =
        g a b := by
  intro l
  induction l with
  | nil => intro g a b _; rfl
  | cons q0 rest ih =>
    intro g a b hnm
    rw [List.foldl_cons, ih _ a b (fun q hq => hnm q (List.mem_cons_of_mem _ hq))]
    exact setG_ne _ _ _ _ _ _ (by
      rintro ⟨h1, h2⟩
      exact hnm q0 (List.mem_cons_self _ _) ⟨h1.symm, h2.symm⟩)

/-- Final value of the atomic down-move write loop at a written target. -/
theorem foldl_write_target :
    ∀ (l : List (Nat × Nat × Nat)) (g : Grid) (a b : Nat) (v : Option SandGrain),
      (∃ q ∈ l, q.1 = a ∧ q.2.1 - 1 = b) →
      (∀ q ∈ l, q.1 = a ∧ q.2.1 - 1 = b → some (createGrain q.2.2 false) = v) →
      (l.foldl (fun g q => setG g q.1 (q.2.1 - 1) (some (createGrain q.2.2 false))) g) a b = v := by
  intro l
  induction l with
  | nil =>
    rintro g a b v ⟨q, hq, -⟩ _
    cases hq
  | cons q0 rest ih =>
    rintro g a b v ⟨q, hq, hqt⟩ hval
    rw [List.foldl_cons]
    by_cases hrt : ∃ q2 ∈ rest, q2.1 = a ∧ q2.2.1 - 1 = b
    · exact ih _ a b v hrt (fun q2 hq2 ht => hval q2 (List.mem_cons_of_mem _ hq2) ht)
    · have hq0 : q0.1 = a ∧ q0.2.1 - 1 = b := by
        rcases List.mem_cons.mp hq with rfl | hmem
        · exact hqt
        · exact absurd ⟨q, hmem, hqt⟩ hrt
      have hnm : ∀ q2 ∈ rest, ¬(q2.1 = a ∧ q2.2.1 - 1 = b) :=
        fun q2 hq2 ht => hrt ⟨q2, hq2, ht⟩
      rw [foldl_write_not_target rest _ a b hnm]
      rw [show a = q0.1 from hq0.1.symm, show b = q0.2.1 - 1 from hq0.2.symm, setG_at]
      exact hval q0 (List.mem_cons_self _ _) hq0

/-- C8 amended: `softDrop` first performs one full `step()`; on the
post-step state, with no falling piece it returns false and changes
nothing further; when some collected cell is blocked nothing moves in
the drop phase, the piece settles (set cleared, spawning allowed) and
it returns false; otherwise the drop is atomic: every collected cell
reappears one row lower (as a fresh base-speed grain of its color),
cells that are neither old falling positions nor drop targets are
untouched, the falling set is retagged one row lower, and it returns
true. -/
theorem claim_C8_amended (s : GameState) :
    ((stepState s).fallingPieceCells = [] → softDrop s = (stepState s, false)) ∧
    ((stepState s).fallingPieceCells ≠ [] → canMoveDownB (stepState s) = false →
      softDrop s =
        ({ stepState s with
            canSpawnNewPiece := true, fallingPieceCells := [] }, false)) ∧
    ((stepState s).fallingPieceCells ≠ [] → canMoveDownB (stepState s) = true →
      (softDrop s).2 = true ∧
      (softDrop s).1.fallingPieceCells =
        (piecesToMove (stepState s)).map (fun q => (q.1, q.2.1 - 1)) ∧
      (∀ q ∈ piecesToMove (stepState s),
        (softDrop s).1.grid q.1 (q.2.1 - 1) = some (createGrain q.2.2 false)) ∧
      (∀ a b : Nat, (a, b) ∉ (stepState s).fallingPieceCells →
        (∀ q ∈ piecesToMove (stepState s), ¬(a = q.1 ∧ b = q.2.1 - 1)) →
        (softDrop s).1.grid a b = (stepState s).grid a b)) := by
  refine ⟨?_, ?_, ?_⟩
  · intro hemp
    unfold softDrop
    rw [if_pos (by rw [hemp]; rfl)]
  · intro hne hcm
    unfold softDrop
    rw [if_neg (by
      intro hc
      exact hne (List.isEmpty_iff.mp hc))]
    rw [if_neg (by rw [hcm]; simp)]
  · intro hne hcm
    unfold softDrop
    rw [if_neg (by
      intro hc
      exact hne (List.isEmpty_iff.mp hc))]
    rw [if_pos hcm]
    refine ⟨rfl, rfl, ?_, ?_⟩
    · intro q hq
      dsimp only
      have hy : q.2.1 ≠ 0 := by
        have := List.all_eq_true.mp hcm q hq
        rcases Bool.and_eq_true _ _ |>.mp this with ⟨h1, -⟩
        intro hc
        rw [hc] at h1
        simp at h1
      refine foldl_write_target _ _ _ _ _ ⟨q, hq, rfl, rfl⟩ ?_
      intro q2 hq2 ht
      have hy2 : q2.2.1 ≠ 0 := by
        have := List.all_eq_true.mp hcm q2 hq2
        rcases Bool.and_eq_true _ _ |>.mp this with ⟨h1, -⟩
        intro hc
        rw [hc] at h1
        simp at h1
      have hsame : q2.2.1 = q.2.1 := by omega
      rcases piecesToMove_spec _ q hq with ⟨g1, hg1, hc1⟩
      rcases piecesToMove_spec _ q2 hq2 with ⟨g2, hg2, hc2⟩
      rw [ht.1, hsame] at hg2
      rw [hg1] at hg2
      rcases Option.some.inj hg2 with rfl
      rw [hc1, hc2]
    · intro a b hnf hnt
      dsimp only
      rw [foldl_write_not_target _ _ a b (by
        intro q hq ⟨h1, h2⟩
        exact hnt q hq ⟨h1.symm, h2.symm⟩)]
      exact foldl_setG_const_not_mem none _ _ a b hnf

/-- Witness for the amended C8 at a concrete input: a falling cell at
(0, 1) over an empty column moves down one row atomically. -/
def c8state2 : GameState :=
  { editState 3 3 (setG emptyGrid 0 2 (some (createGrain 4 false))) with
    fallingPieceCells := [(0, 2)], canSpawnNewPiece := false }

/-- Witness for the amended C8: after the internal step the falling
cell sits at (0, 1); the drop phase moves it to (0, 0) and returns
true. -/
theorem claim_C8_amended_witness :
    (stepState c8state2).fallingPieceCells ≠ [] ∧
    canMoveDownB (stepState c8state2) = true ∧
    (softDrop c8state2).2 = true ∧
    (softDrop c8state2).1.fallingPieceCells =
      (piecesToMove (stepState c8state2)).map (fun q => (q.1, q.2.1 - 1)) :=
  ⟨by decide, by decide,
   ((claim_C8_amended c8state2).2.2 (by decide) (by decide)).1,
   ((claim_C8_amended c8state2).2.2 (by decide) (by decide)).2.1⟩

/-! ## C1: wall-to-wall elimination over 20 ticks -/

/-- The elimination fold of `processEliminationCountdowns` on a state. -/
def elimRun (s : GameState) : ElimAcc :=
  s.connectedComponents.foldl (elimStep s.width s.height)
    { grid := s.grid, comps := [], eliminated := false, blinking := false }

theorem elimRun_eq (s : GameState) :
    elimRun s = s.connectedComponents.foldl (elimStep s.width s.height)
      { grid := s.grid, comps := [], eliminated := false, blinking := false } := rfl

theorem processElim_eq (s : GameState) :
    processEliminationCountdowns s =
      ({ s with
           grid := (elimRun s).grid, connectedComponents := (elimRun s).comps,
           hasActiveEliminations := (elimRun s).blinking },
        (elimRun s).eliminated, (elimRun s).blinking) := rfl

theorem updateCC_blinkShort (s : GameState)
    (hb : (elimRun s).blinking = true) (he : (elimRun s).eliminated = false) :
    updateConnectedComponents s = ((processEliminationCountdowns s).1, false, true) := by
  unfold updateConnectedComponents
  dsimp only
  have hb' : (processEliminationCountdowns s).2.2 = true := by
    rw [processElim_eq]; exact hb
  have he' : (processEliminationCountdowns s).2.1 = false := by
    rw [processElim_eq]; exact he
  rw [hb', he']
  simp

theorem step_blinkShort (s : GameState) (hgo : s.isGameOver = false)
    (hb : (elimRun s).blinking = true) (he : (elimRun s).eliminated = false) :
    step s = ((processEliminationCountdowns s).1, true) := by
  unfold step
  rw [if_neg (by rw [hgo]; simp)]
  dsimp only
  rw [updateCC_blinkShort s hb he]
  rfl

theorem updateCC_rebuild (s : GameState)
    (hbe : ((elimRun s).blinking && !(elimRun s).eliminated) = false) :
    updateConnectedComponents s =
      ({ (processEliminationCountdowns s).1 with
           connectedComponents := scheduleComps (findConnectedComponents
             (processEliminationCountdowns s).1.grid
             (processEliminationCountdowns s).1.connectedComponents
             (processEliminationCountdowns s).1.width
             (processEliminationCountdowns s).1.height),
           hasActiveEliminations :=
             (processEliminationCountdowns s).1.hasActiveEliminations ||
               hasWallBoth (findConnectedComponents
                 (processEliminationCountdowns s).1.grid
                 (processEliminationCountdowns s).1.connectedComponents
                 (processEliminationCountdowns s).1.width
                 (processEliminationCountdowns s).1.height) },
        (processEliminationCountdowns s).2.1,
        (processEliminationCountdowns s).1.hasActiveEliminations ||
          hasWallBoth (findConnectedComponents
            (processEliminationCountdowns s).1.grid
            (processEliminationCountdowns s).1.connectedComponents
            (processEliminationCountdowns s).1.width
            (processEliminationCountdowns s).1.height)) := by
  unfold updateConnectedComponents
  dsimp only
  have hbe' : ((processEliminationCountdowns s).2.2 &&
      !(processEliminationCountdowns s).2.1) = false := by
    rw [processElim_eq]; exact hbe
  rw [hbe']
  rfl

theorem step_rebuild (s : GameState) (hgo : s.isGameOver = false)
    (hbe : ((elimRun s).blinking && !(elimRun s).eliminated) = false)
    (hor : ((processEliminationCountdowns s).1.hasActiveEliminations ||
        hasWallBoth (findConnectedComponents
          (processEliminationCountdowns s).1.grid
          (processEliminationCountdowns s).1.connectedComponents
          (processEliminationCountdowns s).1.width
          (processEliminationCountdowns s).1.height)) = true) :
    step s =
      ({ (processEliminationCountdowns s).1 with
           connectedComponents := scheduleComps (findConnectedComponents
             (processEliminationCountdowns s).1.grid
             (processEliminationCountdowns s).1.connectedComponents
             (processEliminationCountdowns s).1.width
             (processEliminationCountdowns s).1.height),
           hasActiveEliminations := true }, true) := by
  unfold step
  rw [if_neg (by rw [hgo]; simp)]
  dsimp only
  rw [updateCC_rebuild s hbe]
  dsimp only
  rw [hor]
  simp

/-- Countdown shifted down by `i` on scheduled components, identity on
idle ones: the shape of the component list `i` blink ticks after a
scheduling rebuild. -/
def decN (i : Nat) (c : ConnectedComponent) : ConnectedComponent :=
  if 0 ≤ c.eliminationCountdown
  then { c with eliminationCountdown := c.eliminationCountdown - i }
  else c

theorem decN_neg (i : Nat) (c : ConnectedComponent)
    (h : c.eliminationCountdown < 0) : decN i c = c := by
  unfold decN
  rw [if_neg (by omega)]

theorem decN_cells (i : Nat) (c : ConnectedComponent) : (decN i c).cells = c.cells := by
  unfold decN
  split
  · rfl
  · rfl

theorem decN_pos_cd (i : Nat) (c : ConnectedComponent)
    (h : 0 ≤ c.eliminationCountdown) :
    (decN i c).eliminationCountdown = c.eliminationCountdown - (i : Int) := by
  unfold decN
  rw [if_pos h]

theorem decN_zero (c : ConnectedComponent) : decN 0 c = c := by
  unfold decN
  by_cases h : (0 : Int) ≤ c.eliminationCountdown
  · rw [if_pos h]
    have h0 : c.eliminationCountdown - ((0 : Nat) : Int) = c.eliminationCountdown := by
      norm_num
    rw [h0]
  · rw [if_neg h]

theorem map_decN_zero (L : List ConnectedComponent) : L.map (decN 0) = L := by
  induction L with
  | nil => rfl
  | cons c rest ih => rw [List.map_cons, decN_zero, ih]

theorem decCountdown_decN (i : Nat) (hi : i ≤ 18) (c : ConnectedComponent)
    (hc : c.eliminationCountdown < 0 ∨ c.eliminationCountdown = ELIMINATION_TICKS - 1) :
    decCountdown (decN i c) = decN (i + 1) c := by
  have hE : ELIMINATION_TICKS = (20 : Int) := rfl
  rcases hc with hc | hc
  · have h1 : decN i c = c := decN_neg i c hc
    have h2 : decN (i + 1) c = c := decN_neg (i + 1) c hc
    have h3 : decCountdown c = c := by
      unfold decCountdown
      rw [if_neg (by omega)]
    rw [h1, h3, h2]
  · rw [hE] at hc
    have h1 : decN i c = { c with eliminationCountdown := c.eliminationCountdown - (i : Int) } := by
      unfold decN
      rw [if_pos (by omega)]
    have h2 : decCountdown { c with eliminationCountdown := c.eliminationCountdown - (i : Int) } =
        { c with eliminationCountdown := c.eliminationCountdown - (i : Int) - 1 } := by
      unfold decCountdown
      have hcond : (0 : Int) ≤
          ({ c with eliminationCountdown := c.eliminationCountdown - (i : Int) } :
            ConnectedComponent).eliminationCountdown := by
        show (0 : Int) ≤ c.eliminationCountdown - (i : Int)
        omega
      rw [if_pos hcond]
    have h3 : decN (i + 1) c =
        { c with eliminationCountdown := c.eliminationCountdown - ((i + 1 : Nat) : Int) } := by
      unfold decN
      rw [if_pos (by omega)]
    rw [h1, h2, h3]
    have h4 : c.eliminationCountdown - (i : Int) - 1 =
        c.eliminationCountdown - ((i + 1 : Nat) : Int) := by
      push_cast
      ring
    rw [h4]

theorem map_dec_comp (L : List ConnectedComponent) (i : Nat) (hi : i ≤ 18)
    (hs : ∀ c ∈ L, c.eliminationCountdown < 0 ∨
      c.eliminationCountdown = ELIMINATION_TICKS - 1) :
    (L.map (decN i)).map decCountdown = L.map (decN (i + 1)) := by
  induction L with
  | nil => rfl
  | cons c rest ih =>
    rw [List.map_cons, List.map_cons, List.map_cons,
      decCountdown_decN i hi c (hs c (List.mem_cons_self _ _)),
      ih (fun d hd => hs d (List.mem_cons_of_mem _ hd))]

/-- State of the engine `i` blink ticks into an elimination that was
scheduled in `t0`: the flag stays up, countdowns have dropped by `i`,
occupancy is untouched and only scheduled cells may have changed. -/
@[reducible] def BlinkInv (t0 : GameState) (i : Nat) (u : GameState) : Prop :=
  u.width = t0.width ∧ u.height = t0.height ∧
  u.isGameOver = false ∧ u.hasActiveEliminations = true ∧
  u.connectedComponents = t0.connectedComponents.map (decN i) ∧
  (∀ a b : Nat, ((u.grid a b).isSome = (t0.grid a b).isSome)) ∧
  (∀ a b : Nat,
    (∀ c ∈ t0.connectedComponents, 0 ≤ c.eliminationCountdown → (a, b) ∉ c.cells) →
    u.grid a b = t0.grid a b)

theorem decN_out (t0 : GameState) (i : Nat)
    (hsched : ∀ c ∈ t0.connectedComponents, c.eliminationCountdown < 0 ∨
      c.eliminationCountdown = ELIMINATION_TICKS - 1)
    (a b : Nat)
    (hcond : ∀ c ∈ t0.connectedComponents,
      0 ≤ c.eliminationCountdown → (a, b) ∉ c.cells) :
    ∀ c' ∈ t0.connectedComponents.map (decN i),
      0 ≤ c'.eliminationCountdown → (a, b) ∉ c'.cells := by
  have hE : ELIMINATION_TICKS = (20 : Int) := rfl
  intro c' hc' h0
  rcases List.mem_map.mp hc' with ⟨c, hc, rfl⟩
  rcases hsched c hc with h | h
  · rw [decN_neg i c h] at h0
    exact absurd h0 (not_le.mpr h)
  · rw [decN_cells]
    refine hcond c hc ?_
    rw [hE] at h
    omega

theorem blink_step (t0 : GameState)
    (hsched : ∀ c ∈ t0.connectedComponents, c.eliminationCountdown < 0 ∨
      c.eliminationCountdown = ELIMINATION_TICKS - 1)
    (hex : ∃ c ∈ t0.connectedComponents,
      c.eliminationCountdown = ELIMINATION_TICKS - 1)
    (i : Nat) (hi : i ≤ 18) (u : GameState) (hu : BlinkInv t0 i u) :
    BlinkInv t0 (i + 1) (stepState u) := by
  have hE : ELIMINATION_TICKS = (20 : Int) := rfl
  obtain ⟨hw, hh, hgo, hha, hcomps, hsome, hout⟩ := hu
  have hLu : ∀ c' ∈ u.connectedComponents,
      c'.eliminationCountdown < 0 ∨ 1 ≤ c'.eliminationCountdown := by
    intro c' hc'
    rw [hcomps] at hc'
    rcases List.mem_map.mp hc' with ⟨c, hc, rfl⟩
    rcases hsched c hc with h | h
    · left
      rw [decN_neg i c h]
      exact h
    · right
      rw [hE] at h
      rw [decN_pos_cd i c (by omega)]
      omega
  obtain ⟨e1, e2, e3, e4, e5⟩ := elimFold_blink u.width u.height u.connectedComponents hLu
    { grid := u.grid, comps := [], eliminated := false, blinking := false }
  rw [← elimRun_eq u] at e1 e2 e3 e4 e5
  have hb : (elimRun u).blinking = true := by
    rw [e3]
    show (false || (u.connectedComponents.any
      fun c => decide (0 ≤ c.eliminationCountdown))) = true
    rw [Bool.false_or]
    rcases hex with ⟨c, hc, hc19⟩
    rw [hE] at hc19
    refine List.any_eq_true.mpr ⟨decN i c, ?_, ?_⟩
    · rw [hcomps]
      exact List.mem_map.mpr ⟨c, hc, rfl⟩
    · rw [decN_pos_cd i c (by omega)]
      simp only [decide_eq_true_eq]
      omega
  have he : (elimRun u).eliminated = false := by
    rw [e2]
  have hstep : stepState u = (processEliminationCountdowns u).1 := by
    unfold stepState
    rw [step_blinkShort u hgo hb he]
  rw [hstep, processElim_eq]
  refine ⟨hw, hh, hgo, ?_, ?_, ?_, ?_⟩
  · exact hb
  · show (elimRun u).comps = t0.connectedComponents.map (decN (i + 1))
    rw [e1, hcomps, map_dec_comp t0.connectedComponents i hi hsched]
    exact List.nil_append _
  · intro a b
    exact (e4 a b).trans (hsome a b)
  · intro a b hcond
    show (elimRun u).grid a b = t0.grid a b
    have hcond' : ∀ c' ∈ u.connectedComponents,
        0 ≤ c'.eliminationCountdown → (a, b) ∉ c'.cells := by
      intro c' hc' h0
      rw [hcomps] at hc'
      exact decN_out t0 i hsched a b hcond c' hc' h0
    rw [e5 a b hcond']
    exact hout a b hcond

theorem scheduleComps_cells (L : List ConnectedComponent) :
    ∀ c' ∈ scheduleComps L, ∃ n ∈ L, c'.cells = n.cells := by
  intro c' hc'
  rcases List.mem_map.mp hc' with ⟨n, hn, rfl⟩
  refine ⟨n, hn, ?_⟩
  dsimp only
  split
  · rfl
  · rfl

theorem scheduleComps_cd (L : List ConnectedComponent)
    (hL : ∀ n ∈ L, n.eliminationCountdown = -1) :
    ∀ c' ∈ scheduleComps L, c'.eliminationCountdown < 0 ∨
      c'.eliminationCountdown = ELIMINATION_TICKS - 1 := by
  intro c' hc'
  rcases List.mem_map.mp hc' with ⟨n, hn, rfl⟩
  by_cases hbw : (n.touchesLeftWall && n.touchesRightWall) = true
  · right
    rw [if_pos hbw]
  · left
    rw [if_neg hbw, hL n hn]
    norm_num

theorem scheduleComps_mem_sched (L : List ConnectedComponent) (K : ConnectedComponent)
    (hK : K ∈ L) (hl : K.touchesLeftWall = true) (hr : K.touchesRightWall = true) :
    { K with eliminationCountdown := ELIMINATION_TICKS - 1 } ∈ scheduleComps L := by
  refine List.mem_map.mpr ⟨K, hK, ?_⟩
  dsimp only
  rw [if_pos (by rw [hl, hr]; rfl)]

theorem hasWallBoth_true (L : List ConnectedComponent) (K : ConnectedComponent)
    (hK : K ∈ L) (hl : K.touchesLeftWall = true) (hr : K.touchesRightWall = true) :
    hasWallBoth L = true := by
  unfold hasWallBoth
  refine List.any_eq_true.mpr ⟨K, hK, ?_⟩
  rw [hl, hr]
  rfl

theorem growComponent_sub (g : Grid) (comps : List ConnectedComponent) (w h : Nat) :
    ∀ (fuel : Nat) (frontier acc : List (Nat × Nat)) (q : Nat × Nat),
      q ∈ acc → q ∈ growComponent g comps w h fuel frontier acc := by
  intro fuel
  induction fuel with
  | zero => intro frontier acc q hq; exact hq
  | succ n ih =>
    intro frontier acc q hq
    rw [growComponent]
    split
    · exact hq
    · exact ih _ _ q (List.mem_append.mpr (Or.inl hq))

theorem findCC_nonempty (g : Grid) (comps0 : List ConnectedComponent) (w h : Nat) :
    ∀ c ∈ findConnectedComponents g comps0 w h, c.cells ≠ [] := by
  unfold findConnectedComponents
  have haux : ∀ (l : List (Nat × Nat)) (st : List (Nat × Nat) × List ConnectedComponent × Nat),
      (∀ c ∈ st.2.1, c.cells ≠ []) →
      ∀ c ∈ (l.foldl (findCCStep g comps0 w h) st).2.1, c.cells ≠ [] := by
    intro l
    induction l with
    | nil => intro st hst c hc; exact hst c hc
    | cons p rest ihl =>
      intro st hst c hc
      rw [List.foldl_cons] at hc
      unfold findCCStep at hc
      by_cases hcond : ((g p.1 p.2).isSome && !(st.1.any fun r => decide (r = p))) = true
      · rw [if_pos hcond] at hc
        by_cases hiso : (sameColorNeighbors g comps0 w h p).isEmpty = true
        · rw [if_pos hiso] at hc
          exact ihl _ hst c hc
        rw [if_neg hiso] at hc
        refine ihl _ ?_ c hc
        intro c2 hc2
        rcases List.mem_append.mp hc2 with hc2 | hc2
        · exact hst c2 hc2
        · rcases List.mem_singleton.mp hc2 with rfl
          exact List.ne_nil_of_mem
            (growComponent_sub g comps0 w h (w * h) [p] [p] p (List.mem_singleton.mpr rfl))
      · rw [if_neg hcond] at hc
        exact ihl _ hst c hc
  intro c hc
  exact haux (scanPos w h) ([], [], 1) (fun c2 hc2 => absurd hc2 (List.not_mem_nil c2)) c hc

theorem stepN_succ (n : Nat) (s : GameState) :
    stepN (n + 1) s = stepState (stepN n s) :=
  Function.iterate_succ_apply' stepState n s

theorem elim_final (t0 : GameState)
    (hsched : ∀ c ∈ t0.connectedComponents, c.eliminationCountdown < 0 ∨
      c.eliminationCountdown = ELIMINATION_TICKS - 1)
    (hex : ∃ c ∈ t0.connectedComponents,
      c.eliminationCountdown = ELIMINATION_TICKS - 1)
    (hdim : ∀ c ∈ t0.connectedComponents, ∀ q ∈ c.cells,
      q.1 < t0.width ∧ q.2 < t0.height)
    (u : GameState) (hu : BlinkInv t0 19 u) :
    (∀ a b : Nat,
      (∀ c ∈ t0.connectedComponents, 0 ≤ c.eliminationCountdown → (a, b) ∉ c.cells) →
      (stepState u).grid a b = t0.grid a b) ∧
    (∀ a b : Nat,
      (∃ c ∈ t0.connectedComponents, 0 ≤ c.eliminationCountdown ∧ (a, b) ∈ c.cells) →
      (stepState u).grid a b = none) ∧
    (∀ c' ∈ (stepState u).connectedComponents, ∀ q ∈ c'.cells,
      ((stepState u).grid q.1 q.2).isSome = true) ∧
    (stepState u).hasActiveEliminations = true := by
  have hE : ELIMINATION_TICKS = (20 : Int) := rfl
  obtain ⟨hw, hh, hgo, hha, hcomps, hsome, hout⟩ := hu
  have hLu : ∀ c' ∈ u.connectedComponents,
      c'.eliminationCountdown < 0 ∨ c'.eliminationCountdown = 0 := by
    intro c' hc'
    rw [hcomps] at hc'
    rcases List.mem_map.mp hc' with ⟨c, hc, rfl⟩
    rcases hsched c hc with h | h
    · left
      rw [decN_neg 19 c h]
      exact h
    · right
      rw [hE] at h
      rw [decN_pos_cd 19 c (by omega)]
      omega
  obtain ⟨z1, z2, z3, z4, z5⟩ := elimFold_zero u.width u.height u.connectedComponents hLu
    { grid := u.grid, comps := [], eliminated := false, blinking := false }
  rw [← elimRun_eq u] at z1 z2 z3 z4 z5
  have hany : (u.connectedComponents.any
      fun c => decide (0 ≤ c.eliminationCountdown)) = true := by
    rcases hex with ⟨c, hc, hc19⟩
    rw [hE] at hc19
    refine List.any_eq_true.mpr ⟨decN 19 c, ?_, ?_⟩
    · rw [hcomps]
      exact List.mem_map.mpr ⟨c, hc, rfl⟩
    · rw [decN_pos_cd 19 c (by omega)]
      simp only [decide_eq_true_eq]
      omega
  have hel : (elimRun u).eliminated = true := by
    rw [z2]
    show (false || (u.connectedComponents.any
      fun c => decide (0 ≤ c.eliminationCountdown))) = true
    rw [Bool.false_or]
    exact hany
  have hbl : (elimRun u).blinking = true := by
    rw [z3]
    show (false || (u.connectedComponents.any
      fun c => decide (0 ≤ c.eliminationCountdown))) = true
    rw [Bool.false_or]
    exact hany
  have hbe : ((elimRun u).blinking && !(elimRun u).eliminated) = false := by
    rw [hel, hbl]
    rfl
  have hPh : (processEliminationCountdowns u).1.hasActiveEliminations = true := by
    rw [processElim_eq]
    exact hbl
  have hor : ((processEliminationCountdowns u).1.hasActiveEliminations ||
      hasWallBoth (findConnectedComponents
        (processEliminationCountdowns u).1.grid
        (processEliminationCountdowns u).1.connectedComponents
        (processEliminationCountdowns u).1.width
        (processEliminationCountdowns u).1.height)) = true := by
    rw [hPh]
    rfl
  have hstep : stepState u =
      { (processEliminationCountdowns u).1 with
          connectedComponents := scheduleComps (findConnectedComponents
            (processEliminationCountdowns u).1.grid
            (processEliminationCountdowns u).1.connectedComponents
            (processEliminationCountdowns u).1.width
            (processEliminationCountdowns u).1.height),
          hasActiveEliminations := true } := by
    unfold stepState
    rw [step_rebuild u hgo hbe hor]
  refine ⟨?_, ?_, ?_, ?_⟩
  · intro a b hcond
    rw [hstep]
    show (elimRun u).grid a b = t0.grid a b
    have hcond' : ∀ c' ∈ u.connectedComponents,
        0 ≤ c'.eliminationCountdown → (a, b) ∉ c'.cells := by
      intro c' hc' h0
      rw [hcomps] at hc'
      exact decN_out t0 19 hsched a b hcond c' hc' h0
    rw [z4 a b hcond']
    exact hout a b hcond
  · rintro a b ⟨c, hc, h0, hm⟩
    rw [hstep]
    show (elimRun u).grid a b = none
    have hdimc := hdim c hc (a, b) hm
    refine z5 a b (by rw [hw]; exact hdimc.1) (by rw [hh]; exact hdimc.2) ?_
    refine ⟨decN 19 c, ?_, ?_, ?_⟩
    · rw [hcomps]
      exact List.mem_map.mpr ⟨c, hc, rfl⟩
    · have h19 : c.eliminationCountdown = 19 := by
        rcases hsched c hc with hcc | hcc
        · omega
        · rw [hE] at hcc
          omega
      rw [decN_pos_cd 19 c h0, h19]
      norm_num
    · rw [decN_cells]
      exact hm
  · intro c' hc' q hq
    rw [hstep] at hc'
    have hc2 : c' ∈ scheduleComps (findConnectedComponents
        (processEliminationCountdowns u).1.grid
        (processEliminationCountdowns u).1.connectedComponents
        (processEliminationCountdowns u).1.width
        (processEliminationCountdowns u).1.height) := hc'
    rcases scheduleComps_cells _ c' hc2 with ⟨n, hn, hcn⟩
    rw [hcn] at hq
    have hgood := (findCC_good _ _ _ _ n hn).1 q hq
    rw [hstep]
    show ((processEliminationCountdowns u).1.grid q.1 q.2).isSome = true
    exact hgood.2.2
  · rw [hstep]

/-- C1: whenever step() runs a component rebuild (the game is not over
and the elimination pass did not short-circuit as blinking-without-
elimination) and the rebuild yields a component K touching both walls,
that step stores K with eliminationCountdown = ELIMINATION_TICKS - 1 =
19; over the following ELIMINATION_TICKS = 20 calls to step(), the
time-stopped flag stays raised for the 20 states the calls act on, cell
occupancy is unchanged through the first 19 of them, cells belonging to
no scheduled component are untouched through all 20, and after the 20th
all of K's member cells are empty and no component of the rebuilt list
contains any cell of K -- K has been removed. -/
theorem claim_C1 (s : GameState) (K : ConnectedComponent)
    (hgo : s.isGameOver = false)
    (hnb : ¬((processEliminationCountdowns s).2.2 = true ∧
      (processEliminationCountdowns s).2.1 = false))
    (hK : K ∈ findConnectedComponents (processEliminationCountdowns s).1.grid
      (processEliminationCountdowns s).1.connectedComponents
      (processEliminationCountdowns s).1.width (processEliminationCountdowns s).1.height)
    (hKl : K.touchesLeftWall = true) (hKr : K.touchesRightWall = true) :
    ({ K with eliminationCountdown := ELIMINATION_TICKS - 1 } ∈
      (stepState s).connectedComponents) ∧
    (∀ i : Nat, i ≤ 19 → isTimeStopped (stepN i (stepState s)) = true) ∧
    (∀ i : Nat, i ≤ 19 → ∀ a b : Nat,
      ((stepN i (stepState s)).grid a b).isSome = ((stepState s).grid a b).isSome) ∧
    (∀ i : Nat, i ≤ 20 → ∀ a b : Nat,
      (∀ c ∈ (stepState s).connectedComponents,
        0 ≤ c.eliminationCountdown → (a, b) ∉ c.cells) →
      (stepN i (stepState s)).grid a b = (stepState s).grid a b) ∧
    (∀ p ∈ K.cells, (stepN 20 (stepState s)).grid p.1 p.2 = none) ∧
    ({ K with eliminationCountdown := ELIMINATION_TICKS - 1 } ∉
      (stepN 20 (stepState s)).connectedComponents) ∧
    (∀ c' ∈ (stepN 20 (stepState s)).connectedComponents,
      ∀ p ∈ K.cells, p ∉ c'.cells) := by
  have hE : ELIMINATION_TICKS = (20 : Int) := rfl
  have hbe : ((elimRun s).blinking && !(elimRun s).eliminated) = false := by
    have hb2 : (processEliminationCountdowns s).2.2 = (elimRun s).blinking := by
      rw [processElim_eq]
    have he2 : (processEliminationCountdowns s).2.1 = (elimRun s).eliminated := by
      rw [processElim_eq]
    by_cases hbv : (elimRun s).blinking = true
    · by_cases hev : (elimRun s).eliminated = true
      · rw [hbv, hev]
        rfl
      · have hev' : (elimRun s).eliminated = false := by
          cases hE2 : (elimRun s).eliminated
          · rfl
          · exact absurd hE2 hev
        exact absurd ⟨hb2.trans hbv, he2.trans hev'⟩ hnb
    · have hbv' : (elimRun s).blinking = false := by
        cases hB2 : (elimRun s).blinking
        · rfl
        · exact absurd hB2 hbv
      rw [hbv']
      rfl
  have hwall : hasWallBoth (findConnectedComponents
      (processEliminationCountdowns s).1.grid
      (processEliminationCountdowns s).1.connectedComponents
      (processEliminationCountdowns s).1.width
      (processEliminationCountdowns s).1.height) = true :=
    hasWallBoth_true _ K hK hKl hKr
  have hor : ((processEliminationCountdowns s).1.hasActiveEliminations ||
      hasWallBoth (findConnectedComponents
        (processEliminationCountdowns s).1.grid
        (processEliminationCountdowns s).1.connectedComponents
        (processEliminationCountdowns s).1.width
        (processEliminationCountdowns s).1.height)) = true := by
    rw [hwall, Bool.or_true]
  have ht0 : stepState s =
      { (processEliminationCountdowns s).1 with
          connectedComponents := scheduleComps (findConnectedComponents
            (processEliminationCountdowns s).1.grid
            (processEliminationCountdowns s).1.connectedComponents
            (processEliminationCountdowns s).1.width
            (processEliminationCountdowns s).1.height),
          hasActiveEliminations := true } := by
    unfold stepState
    rw [step_rebuild s hgo hbe hor]
  have hcd0 : ∀ n ∈ findConnectedComponents
      (processEliminationCountdowns s).1.grid
      (processEliminationCountdowns s).1.connectedComponents
      (processEliminationCountdowns s).1.width
      (processEliminationCountdowns s).1.height, n.eliminationCountdown = -1 :=
    fun n hn => (findCC_good _ _ _ _ n hn).2.1
  have hsched : ∀ c ∈ (stepState s).connectedComponents,
      c.eliminationCountdown < 0 ∨ c.eliminationCountdown = ELIMINATION_TICKS - 1 := by
    intro c hc
    rw [ht0] at hc
    exact scheduleComps_cd _ hcd0 c hc
  have hmemK : { K with eliminationCountdown := ELIMINATION_TICKS - 1 } ∈
      (stepState s).connectedComponents := by
    rw [ht0]
    exact scheduleComps_mem_sched _ K hK hKl hKr
  have hex : ∃ c ∈ (stepState s).connectedComponents,
      c.eliminationCountdown = ELIMINATION_TICKS - 1 :=
    ⟨{ K with eliminationCountdown := ELIMINATION_TICKS - 1 }, hmemK, rfl⟩
  have hdim : ∀ c ∈ (stepState s).connectedComponents, ∀ q ∈ c.cells,
      q.1 < (stepState s).width ∧ q.2 < (stepState s).height := by
    intro c hc q hq
    rw [ht0] at hc
    rcases scheduleComps_cells _ c hc with ⟨n, hn, hcn⟩
    rw [hcn] at hq
    have hg := (findCC_good _ _ _ _ n hn).1 q hq
    constructor
    · rw [ht0]
      exact hg.1
    · rw [ht0]
      exact hg.2.1
  have hInv : ∀ i : Nat, i ≤ 19 → BlinkInv (stepState s) i (stepN i (stepState s)) := by
    intro i
    induction i with
    | zero =>
      intro _
      refine ⟨rfl, rfl, ?_, ?_, ?_, fun a b => rfl, fun a b _ => rfl⟩
      · show (stepState s).isGameOver = false
        rw [ht0]
        exact hgo
      · show (stepState s).hasActiveEliminations = true
        rw [ht0]
      · show (stepState s).connectedComponents =
          (stepState s).connectedComponents.map (decN 0)
        exact (map_decN_zero _).symm
    | succ n ih =>
      intro hn1
      rw [stepN_succ]
      exact blink_step (stepState s) hsched hex n (by omega)
        (stepN n (stepState s)) (ih (by omega))
  have hfin := elim_final (stepState s) hsched hex hdim
    (stepN 19 (stepState s)) (hInv 19 (by omega))
  have h20 : stepN 20 (stepState s) = stepState (stepN 19 (stepState s)) :=
    stepN_succ 19 (stepState s)
  have hKsched : ∃ c ∈ (stepState s).connectedComponents,
      0 ≤ c.eliminationCountdown ∧ ∀ p ∈ K.cells, p ∈ c.cells := by
    refine ⟨{ K with eliminationCountdown := ELIMINATION_TICKS - 1 }, hmemK, ?_, ?_⟩
    · show (0 : Int) ≤ ELIMINATION_TICKS - 1
      rw [hE]
      norm_num
    · intro p hp
      exact hp
  refine ⟨hmemK, ?_, ?_, ?_, ?_, ?_, ?_⟩
  · intro i hi
    exact (hInv i hi).2.2.2.1
  · intro i hi a b
    exact (hInv i hi).2.2.2.2.2.1 a b
  · intro i hi a b hcond
    by_cases h19 : i ≤ 19
    · exact (hInv i h19).2.2.2.2.2.2 a b hcond
    · have hieq : i = 20 := by omega
      subst hieq
      rw [h20]
      exact hfin.1 a b hcond
  · intro p hp
    rw [h20]
    rcases hKsched with ⟨c, hc, hc0, hcp⟩
    exact hfin.2.1 p.1 p.2 ⟨c, hc, hc0, hcp p hp⟩
  · intro hmem
    have hne := findCC_nonempty _ _ _ _ K hK
    obtain ⟨p, hp⟩ := List.exists_mem_of_ne_nil K.cells hne
    have hocc := hfin.2.2.1 { K with eliminationCountdown := ELIMINATION_TICKS - 1 }
      (h20 ▸ hmem) p hp
    rcases hKsched with ⟨c, hc, hc0, hcp⟩
    have hnone := hfin.2.1 p.1 p.2 ⟨c, hc, hc0, hcp p hp⟩
    rw [hnone] at hocc
    simp at hocc
  · intro c' hc' p hp hpc
    have hocc := hfin.2.2.1 c' (h20 ▸ hc') p hpc
    rcases hKsched with ⟨c, hc, hc0, hcp⟩
    have hnone := hfin.2.1 p.1 p.2 ⟨c, hc, hc0, hcp p hp⟩
    rw [hnone] at hocc
    simp at hocc

/-- Concrete scenario for C1: a 2-wide, 1-high grid whose two cells
share color 1, so the rebuild finds one component spanning both walls. -/
def c1s : GameState :=
  editState 2 1 (setG (setG emptyGrid 0 0 (some (createGrain 1 false))) 1 0
    (some (createGrain 1 false)))

/-- The component the rebuild produces on `c1s`. -/
def c1K : ConnectedComponent :=
  { id := 1, cells := [(0, 0), (1, 0)], originalColor := 1,
    touchesLeftWall := true, touchesRightWall := true, eliminationCountdown := -1 }

/-- Witness for C1 on the concrete 2x1 state: all hypotheses hold and
the scheduled copy of the component is stored by the scheduling step. -/
theorem claim_C1_witness :
    c1s.isGameOver = false ∧
    ¬((processEliminationCountdowns c1s).2.2 = true ∧
      (processEliminationCountdowns c1s).2.1 = false) ∧
    c1K ∈ findConnectedComponents (processEliminationCountdowns c1s).1.grid
      (processEliminationCountdowns c1s).1.connectedComponents
      (processEliminationCountdowns c1s).1.width
      (processEliminationCountdowns c1s).1.height ∧
    c1K.touchesLeftWall = true ∧ c1K.touchesRightWall = true ∧
    { c1K with eliminationCountdown := ELIMINATION_TICKS - 1 } ∈
      (stepState c1s).connectedComponents := by
  refine ⟨rfl, ?_, ?_, rfl, rfl, ?_⟩
  · decide
  · decide
  · exact (claim_C1 c1s c1K rfl (by decide) (by decide) rfl rfl).1

end SandTetris
